import Mathlib

/-!
Verification development for the rpg-map-builder rendering engine.

The TypeScript sources embedded here:
* `src/services/utils.ts` — the `StochasticStamp` generator/renderer and color utils;
* `src/unnamed/part_001` — the `MapEngine` class (paint, path tracing, shallow
  water, texture compositing, snapshots).

Conventions of the shallow embedding:
* machine floats become exact arithmetic: user-facing parameters (brush sizes,
  percentages, spacing factors, `Math.random()` samples) are rationals, while
  geometric quantities that pass through `Math.hypot`/`Math.sqrt` live in `ℝ`;
* a canvas bitmap is a total function `ℤ → ℤ → RGBA` (premultiplied-alpha
  channels, the native representation of canvas compositing); every canvas
  mutation clips to the canvas bounds `[0,w) × [0,h)`, pixels outside bounds
  are never touched so they simply carry their previous (meaningless) value;
* rotated, anti-aliased stamp rasterization, shadow-blur rendering and
  per-mark path rasterization are browser-dependent resampling steps; they are
  modelled as explicit function parameters (`raster`, `shadowDraw`,
  `markRaster`) applied to the exact draw records the engine produces, so all
  theorems hold for every rasterizer;
* `Math.random()` is an explicit stream `ℕ → ℚ` of samples, consumed in source
  order; functions return the un-consumed suffix of the stream;
* `ctx.save()/restore()` around a composite-operation change is modelled by
  passing the composite operation explicitly to the draw that uses it.
-/

set_option autoImplicit false

namespace RpgMap

/-- A premultiplied-alpha color, the internal representation on which the
canvas Porter-Duff composite operators act channel-wise. -/
structure RGBA where
  r : ℚ
  g : ℚ
  b : ℚ
  a : ℚ
deriving DecidableEq

/-- The fully transparent pixel (result of `clearRect`, initial canvas
content). -/
def RGBA.zero : RGBA := ⟨0, 0, 0, 0⟩

/-- Scale every channel of a premultiplied color by a factor (used by the
`destination-in` / `destination-out` operators). -/
def RGBA.smul (t : ℚ) (c : RGBA) : RGBA := ⟨c.r * t, c.g * t, c.b * t, c.a * t⟩

/-- Porter-Duff `source-over` on premultiplied colors: `s + d·(1 - αs)`. -/
def RGBA.over (s d : RGBA) : RGBA :=
  ⟨s.r + d.r * (1 - s.a), s.g + d.g * (1 - s.a), s.b + d.b * (1 - s.a),
   s.a + d.a * (1 - s.a)⟩

/-- Porter-Duff `destination-in`: keep the destination where the source is
opaque, `d·αs`. -/
def RGBA.destIn (s d : RGBA) : RGBA := RGBA.smul s.a d

/-- A canvas bitmap: a color for every integer pixel coordinate.  Only the
pixels inside the canvas bounds are meaningful; every operation below leaves
out-of-bounds values untouched. -/
def Layer : Type := ℤ → ℤ → RGBA

/-- The blank bitmap of a freshly allocated canvas. -/
def Layer.empty : Layer := fun _ _ => RGBA.zero

/-- Pixel `(i, j)` lies inside a `w × h` canvas. -/
def inCanvas (w h : ℕ) (i j : ℤ) : Prop :=
  0 ≤ i ∧ i < (w : ℤ) ∧ 0 ≤ j ∧ j < (h : ℤ)

instance (w h : ℕ) (i j : ℤ) : Decidable (inCanvas w h i j) := by
  unfold inCanvas; infer_instance

/-- Pixel `(i, j)` lies inside the axis-aligned rectangle with corner
`(rx, ry)` and extent `rw × rh`. -/
def inRect (rx ry rw rh : ℤ) (i j : ℤ) : Prop :=
  rx ≤ i ∧ i < rx + rw ∧ ry ≤ j ∧ j < ry + rh

instance (rx ry rw rh i j : ℤ) : Decidable (inRect rx ry rw rh i j) := by
  unfold inRect; infer_instance

/-- `ctx.clearRect(rx, ry, rw, rh)`: pixels of the rectangle (clipped to the
canvas) become transparent. -/
def clearRect (w h : ℕ) (L : Layer) (rx ry rw rh : ℤ) : Layer :=
  fun i j =>
    if inCanvas w h i j ∧ inRect rx ry rw rh i j then RGBA.zero else L i j

/-- A decoded pattern/texture image: its pixel grid and dimensions. -/
structure PatternImg where
  pw : ℕ
  ph : ℕ
  pix : ℤ → ℤ → RGBA

/-- The infinite tiling of a pattern image produced by
`createPattern(img, \"repeat\")` with the default (identity) pattern
transform: tiles are anchored at the canvas origin. -/
def patternAt (img : PatternImg) (i j : ℤ) : RGBA :=
  img.pix (i % (img.pw : ℤ)) (j % (img.ph : ℤ))

/-- `ctx.fillRect` over a rectangle with a repeating pattern fill style
(`source-over`, the operation the texture compositor uses after clearing). -/
def fillRectPattern (w h : ℕ) (img : PatternImg) (L : Layer)
    (rx ry rw rh : ℤ) : Layer :=
  fun i j =>
    if inCanvas w h i j ∧ inRect rx ry rw rh i j then
      RGBA.over (patternAt img i j) (L i j)
    else L i j

/-- `ctx.drawImage(src, rx, ry, rw, rh, rx, ry, rw, rh)` under
`globalCompositeOperation = destination-in`.  Per the canvas drawing model the
composite operator is applied over the whole bitmap (restricted only by the
clip region, which is unset here): pixels of the canvas not covered by the
drawn slice see a transparent source and therefore become transparent. -/
def drawSliceDestIn (w h : ℕ) (src : Layer) (dst : Layer)
    (rx ry rw rh : ℤ) : Layer :=
  fun i j =>
    if inCanvas w h i j then
      if inRect rx ry rw rh i j then RGBA.destIn (src i j) (dst i j)
      else RGBA.zero
    else dst i j

/-- A stream of `Math.random()` outcomes (each a sample in `[0,1)`), consumed
in program order. -/
def Rand : Type := ℕ → ℚ

/-- Drop the first `k` samples of a random stream. -/
def Rand.shift (r : Rand) (k : ℕ) : Rand := fun n => r (n + k)

end RpgMap

namespace RpgMap.StochasticStamp

/-- The silhouette drawn into the stamp's offscreen canvas
(`src/services/utils.ts`, `StochasticStamp.generate`): either the closed
40-point jittered polygon (its `lastR` radius per vertex, 41 entries, vertex
`i` at angle `i/40·2π`) or the perfect circle of the smooth branch. -/
inductive StampShape where
  | blank : StampShape
  | circle : StampShape
  | polygon (radii : List ℚ) : StampShape
deriving DecidableEq

/-- Everything the stamp's offscreen canvas content is a function of: the
canvas side, the silhouette, whether the fill is solid white
(`finalBlurWidth ≥ 95`) or the white→transparent radial gradient, the gradient
outer radius, and the nominal stamp radius. -/
structure MaskDesc where
  canvasSize : ℤ
  shape : StampShape
  hardEdge : Bool
  gradRadius : ℚ
  size : ℚ
deriving DecidableEq

/-- The content of a freshly created, never-drawn offscreen canvas (the
`document.createElement` branch of `generate`). -/
def MaskDesc.blank : MaskDesc := ⟨300, StampShape.blank, false, 0, 0⟩

/-- The single-slot stamp cache of `StochasticStamp`: the cached offscreen
mask (absent until the first call allocates the canvas) and the key fields
`lastSize` / `lastRoughness` / `lastBlurWidth`. -/
structure StampState where
  offMask : Option MaskDesc
  lastSize : ℚ
  lastRoughness : ℚ
  lastBlurWidth : ℚ
deriving DecidableEq

/-- The module-initial cache state (`lastSize = 0`, `lastRoughness = -1`,
`lastBlurWidth = -1`, no canvas yet). -/
def initialState : StampState := ⟨none, 0, -1, -1⟩

/-- Effective roughness: the per-call override wins over the global value
(`roughOverride !== null ? roughOverride : roughnessPercent`). -/
def effRough (roughnessPercent : ℚ) (roughOverride : Option ℚ) : ℚ :=
  roughOverride.getD roughnessPercent

/-- Effective falloff (blur) width: the per-call override wins over the
global value. -/
def effBlur (blurWidthPercent : ℚ) (blurOverride : Option ℚ) : ℚ :=
  blurOverride.getD blurWidthPercent

/-- The effective `(size, roughness, falloffWidth)` cache key of one
`generate` call. -/
def effKey (size roughnessPercent blurWidthPercent : ℚ)
    (roughOverride blurOverride : Option ℚ) : ℚ × ℚ × ℚ :=
  (size, effRough roughnessPercent roughOverride,
   effBlur blurWidthPercent blurOverride)

/-- The key currently held by the cache. -/
def StampState.key (st : StampState) : ℚ × ℚ × ℚ :=
  (st.lastSize, st.lastRoughness, st.lastBlurWidth)

/-- The polygon-sampling loop of `generate`: `for i in [0,40]`, every third
vertex re-draws `lastR = size + (random() - 0.5) * roughnessPx` and the value
is held for the two following vertices.  Arguments: current `i`, remaining
iterations, current `lastR`, random stream; returns the radius per vertex and
the rest of the stream. -/
def polyRadiiGo (size roughPx : ℚ) : ℕ → ℕ → ℚ → Rand → List ℚ × Rand
  | _, 0, _, r => ([], r)
  | i, n + 1, lastR, r =>
      let step : ℚ × Rand :=
        if i % 3 = 0 then (size + (r 0 - 1/2) * roughPx, r.shift 1)
        else (lastR, r)
      let rest := polyRadiiGo size roughPx (i + 1) n step.1 step.2
      (step.1 :: rest.1, rest.2)

/-- The 41 vertex radii of one polygon silhouette (`i` from 0 to `points`
inclusive, `points = 40`; `lastR` initialized to `size`). -/
def polyRadii (size roughPx : ℚ) (r : Rand) : List ℚ × Rand :=
  polyRadiiGo size roughPx 0 41 size r

/-- Regeneration body of `generate` (the part after the cache check): produce
the new offscreen mask from the effective parameters and the random stream. -/
def genMask (size fr fb : ℚ) (r : Rand) : MaskDesc × Rand :=
  let canvasSize : ℤ := ⌈(size * 1.5 + size) * 2⌉
  if 0 < fr then
    let roughPx := fr / 100 * size * 1.5
    let rad := polyRadii size roughPx r
    (⟨canvasSize, StampShape.polygon rad.1, decide (¬ fb < 95),
      size + roughPx / 2, size⟩, rad.2)
  else
    (⟨canvasSize, StampShape.circle, decide (¬ fb < 95), size, size⟩, r)

/-- `StochasticStamp.generate(size, roughnessPercent, blurWidthPercent,
roughOverride, blurOverride)`: allocate the offscreen canvas if absent,
compute the effective key, return untouched on a cache hit, otherwise redraw
the mask and record the new key. -/
def generate (st : StampState) (size roughnessPercent blurWidthPercent : ℚ)
    (roughOverride blurOverride : Option ℚ) (r : Rand) :
    StampState × Rand :=
  let st₁ : StampState :=
    if st.offMask = none then { st with offMask := some MaskDesc.blank }
    else st
  let fb := effBlur blurWidthPercent blurOverride
  let fr := effRough roughnessPercent roughOverride
  if size = st₁.lastSize ∧ fr = st₁.lastRoughness ∧ fb = st₁.lastBlurWidth then
    (st₁, r)
  else
    let m := genMask size fr fb r
    (⟨some m.1, size, fr, fb⟩, m.2)

end RpgMap.StochasticStamp

namespace RpgMap

open StochasticStamp

/-- A canvas composite operation as set by the engine around a stamp draw
(`ctx.globalCompositeOperation`); `sourceOver` is the canvas default. -/
inductive CompOp where
  | sourceOver
  | destinationIn
  | destinationOut
  | sourceAtop
deriving DecidableEq

/-- One stamp application as handed to the rasterizer by
`StochasticStamp.drawStamp`: position, nominal radius, tint color, global
alpha, rotation angle, and the cached offscreen mask used as the stencil. -/
structure StampDraw where
  x : ℝ
  y : ℝ
  size : ℚ
  color : String
  opacity : ℚ
  rot : ℝ
  mask : MaskDesc

/-- Which engine-owned bitmap a stamp draw went to. -/
inductive TargetId where
  | landMask
  | map
  | textureMask
deriving DecidableEq

/-- A stamp draw recorded together with its target and composite operation. -/
structure StampEvent where
  target : TargetId
  op : CompOp
  draw : StampDraw

/-- Result of one modelled `drawStamp` call: the updated target bitmap, the
updated stamp cache, the rest of the random stream, and the draw record that
was rasterized. -/
structure DrawResult where
  layer : Layer
  stamp : StampState
  rand : Rand
  draw : StampDraw

/-- `StochasticStamp.drawStamp` (`src/services/utils.ts`): run `generate`,
then tint the cached mask and draw it centered at `(x, y)` with the given
rotation (a fresh `Math.random()·2π` when the caller passed none) and opacity.
The pixel effect of the rotated, resampled draw is delegated to the abstract
rasterizer `raster`; the composite operation `op` is the one the caller had
set on the target context.  The `!this.offCanvas` early return is dead code
after `generate` (which always allocates), so the mask is read with a blank
default. -/
noncomputable def drawStamp (raster : StampDraw → CompOp → Layer → Layer)
    (op : CompOp) (st : StampState) (target : Layer) (x y : ℝ) (size : ℚ)
    (color : String) (opacity : ℚ) (globalRoughness globalBlurWidth : ℚ)
    (roughOverride blurOverride : Option ℚ) (rotation : Option ℝ)
    (r : Rand) : DrawResult :=
  let g := generate st size globalRoughness globalBlurWidth roughOverride
    blurOverride r
  let rot : ℝ × Rand :=
    match rotation with
    | some v => (v, g.2)
    | none => (((g.2 0 : ℚ) : ℝ) * (2 * Real.pi), g.2.shift 1)
  let d : StampDraw :=
    ⟨x, y, size, color, opacity, rot.1, g.1.offMask.getD MaskDesc.blank⟩
  ⟨raster d op target, g.1, rot.2, d⟩

/-- The paint modes of the external state model (`src/types.ts`); the `none`
mode is called `noneMode` here. -/
inductive PaintMode where
  | terrain
  | river
  | sea
  | texture
  | path
  | noneMode
deriving DecidableEq

/-- Path mark style (`src/types.ts`). -/
inductive PathStyle where
  | dots
  | dashed
deriving DecidableEq

/-- The slice of the UI `AppState` the engine reads (`src/types.ts`). -/
structure AppState where
  paintMode : PaintMode
  brushSize : ℚ
  brushBlur : ℚ
  blurWidth : ℚ
  roughness : ℚ
  terrainColor : String
  selectedTexture : String
  activeTexture : Option String
  isTextureEraser : Bool
  isOrganicRiver : Bool
  pathColor : String
  pathSpacing : ℚ
  pathStyle : PathStyle

/-- `MapEngine.riverState`: the smoothed random walk driving organic river
width, plus the previous dab position. -/
structure RiverState where
  currentWidthFactor : ℚ
  targetWidthFactor : ℚ
  distToNextChange : ℚ
  traveledSinceChange : ℝ
  lastX : ℝ
  lastY : ℝ

/-- The `MapEngine` state: the six visible layer contexts bound by `init`
(absent before initialization), the two constructor-owned offscreen masks
(always present), the active pattern image, the path remainder and the river
state.  All canvases share the `width × height` dimensions `init` set. -/
structure Engine where
  width : ℕ
  height : ℕ
  mapCtx : Option Layer
  waterCtx : Option Layer
  textureLayerCtx : Option Layer
  pathCtx : Option Layer
  assetCtx : Option Layer
  textCtx : Option Layer
  maskLayer : Layer
  textureMaskLayer : Layer
  currentTextureImg : Option PatternImg
  pathRemainder : ℝ
  riverState : RiverState

/-- Read an optional context's bitmap (used where the code has already
guarded on, or non-null-asserted, the context). -/
def getLayer (o : Option Layer) : Layer := o.getD Layer.empty

/-- The `this.riverState.lastX = x; this.riverState.lastY = y` epilogue every
`applyPaint` call runs regardless of mode. -/
def setLast (e : Engine) (x y : ℝ) : Engine :=
  { e with riverState := { e.riverState with lastX := x, lastY := y } }

/-- The clamped processed rectangle of `renderTextureLayer` as
`(x, y, w, h)`: the whole canvas when no dirty region is given, otherwise the
intersection of the dirty square with the canvas bounds, `none` when that
intersection is empty (the early-return case). -/
noncomputable def processedRect (w h : ℕ) (dirty : Option (ℝ × ℝ × ℝ)) :
    Option (ℤ × ℤ × ℤ × ℤ) :=
  match dirty with
  | none => some (0, 0, (w : ℤ), (h : ℤ))
  | some (dx, dy, dr) =>
      let left := ⌊dx - dr⌋
      let top := ⌊dy - dr⌋
      let size := ⌈dr * 2⌉
      let startX := max 0 left
      let startY := max 0 top
      let endX := min (w : ℤ) (left + size)
      let endY := min (h : ℤ) (top + size)
      if endX ≤ startX ∨ endY ≤ startY then none
      else some (startX, startY, endX - startX, endY - startY)

/-- Membership of a pixel in an optional processed rectangle (`none` — the
early-returned empty intersection — contains nothing). -/
def inProcessed (pr : Option (ℤ × ℤ × ℤ × ℤ)) (i j : ℤ) : Prop :=
  match pr with
  | none => False
  | some (rx, ry, rw, rh) => inRect rx ry rw rh i j

/-- `MapEngine.renderTextureLayer(dirtyX?, dirtyY?, dirtyR?)`: without an
active pattern image, clear the dirty square (or the whole layer); with one,
clear the processed rectangle, fill it with the repeating pattern
(`createPattern` is modelled as always succeeding), then intersect
(`destination-in`) with the texture mask slice and then with the land mask
slice. -/
noncomputable def renderTextureLayer (e : Engine)
    (dirty : Option (ℝ × ℝ × ℝ)) : Engine :=
  match e.textureLayerCtx, e.currentTextureImg with
  | none, _ => e
  | some L, none =>
      match dirty with
      | some (dx, dy, dr) =>
          let L' := clearRect e.width e.height L ⌊dx - dr⌋ ⌊dy - dr⌋
            ⌈dr * 2⌉ ⌈dr * 2⌉
          { e with textureLayerCtx := some L' }
      | none =>
          let L' := clearRect e.width e.height L 0 0 e.width e.height
          { e with textureLayerCtx := some L' }
  | some L, some img =>
      match processedRect e.width e.height dirty with
      | none => e
      | some (rx, ry, rw, rh) =>
          let L₁ := clearRect e.width e.height L rx ry rw rh
          let L₂ := fillRectPattern e.width e.height img L₁ rx ry rw rh
          let L₃ := drawSliceDestIn e.width e.height e.textureMaskLayer L₂
            rx ry rw rh
          let L₄ := drawSliceDestIn e.width e.height e.maskLayer L₃
            rx ry rw rh
          { e with textureLayerCtx := some L₄ }

/-- The organic-river state evolution at the top of the river branch of
`applyPaint`: accumulate the distance from the previous dab, re-seed the
target width factor (uniform in `[0.6, 1.1)`) and the next change distance
(uniform in `[20, 60)`) when the traveled distance reaches the threshold,
then blend the current width factor toward the target by the 0.15 rate. -/
noncomputable def riverAdvance (rs : RiverState) (x y : ℝ) (r : Rand) :
    RiverState × Rand :=
  let dist := Real.sqrt ((x - rs.lastX) ^ 2 + (y - rs.lastY) ^ 2)
  let traveled := rs.traveledSinceChange + dist
  let upd : ℚ × ℚ × ℝ × Rand :=
    if (rs.distToNextChange : ℝ) ≤ traveled then
      (0.6 + r 0 * 0.5, 20 + r 1 * 40, 0, r.shift 2)
    else
      (rs.targetWidthFactor, rs.distToNextChange, traveled, r)
  ({ rs with
      targetWidthFactor := upd.1
      distToNextChange := upd.2.1
      traveledSinceChange := upd.2.2.1
      currentWidthFactor :=
        rs.currentWidthFactor + (upd.1 - rs.currentWidthFactor) * 0.15 },
    upd.2.2.2)

/-- `MapEngine.drawToMask`: additive land-mask stamp with the hard-edge blur
override 95 and the caller-supplied shared rotation. -/
noncomputable def drawToMask (raster : StampDraw → CompOp → Layer → Layer)
    (st : StampState) (mask : Layer) (x y : ℝ) (radius : ℚ) (s : AppState)
    (rotation : ℝ) (r : Rand) : DrawResult :=
  drawStamp raster CompOp.sourceOver st mask x y radius "black" 1 s.roughness
    s.blurWidth none (some 95) (some rotation) r

/-- `MapEngine.eraseFromMask`: subtractive (`destination-out`) land-mask
stamp with blur override 100 and the caller-supplied shared rotation. -/
noncomputable def eraseFromMask (raster : StampDraw → CompOp → Layer → Layer)
    (st : StampState) (mask : Layer) (x y : ℝ) (radius : ℚ) (s : AppState)
    (rotation : ℝ) (r : Rand) : DrawResult :=
  drawStamp raster CompOp.destinationOut st mask x y radius "black" 1
    s.roughness s.blurWidth none (some 100) (some rotation) r

/-- Result of one `applyPaint` dab: the engine, the stamp cache, the rest of
the random stream, and the list of stamp draws performed (in order). -/
structure PaintResult where
  engine : Engine
  stamp : StampState
  rand : Rand
  trace : List StampEvent

/-- `MapEngine.applyPaint(x, y, state)` (`src/unnamed/part_001`).  The guard
checks `mapCtx` (the `maskCtx`/`textureMaskCtx` conjuncts are
constructor-allocated and never absent, so only `mapCtx` can fail before
`init`).  Terrain: one shared random rotation, additive stamp into the land
mask and the visible map layer, then a dirty-rect texture recompute of radius
`3·radius`.  River: optionally evolve the organic width state, erase from
both with one shared rotation, recompute texture at radius `3·fr`.  Texture:
with an active pattern, stamp the texture mask (additive, or subtractive in
eraser mode) with full-opacity overrides and recompute; without one, paint
the flat color onto existing land (`source-atop`).  Every call ends by
recording the dab position in `riverState.lastX/lastY`. -/
noncomputable def applyPaint (raster : StampDraw → CompOp → Layer → Layer)
    (e : Engine) (st : StampState) (x y : ℝ) (s : AppState) (r : Rand) :
    PaintResult :=
  if e.mapCtx.isNone then ⟨e, st, r, []⟩ else
  let opacity := s.brushBlur / 100
  let radius := s.brushSize
  let updateRad : ℚ := radius * 3
  match s.paintMode with
  | PaintMode.terrain =>
      let syncRotation : ℝ := ((r 0 : ℚ) : ℝ) * (2 * Real.pi)
      let r₁ := r.shift 1
      let m := drawToMask raster st e.maskLayer x y radius s syncRotation r₁
      let v := drawStamp raster CompOp.sourceOver m.stamp
        (getLayer e.mapCtx) x y radius s.terrainColor opacity s.roughness
        s.blurWidth none (some 95) (some syncRotation) m.rand
      let e₁ := { e with maskLayer := m.layer, mapCtx := some v.layer }
      let e₂ := renderTextureLayer e₁ (some (x, y, ((updateRad : ℚ) : ℝ)))
      ⟨setLast e₂ x y, v.stamp, v.rand,
        [⟨TargetId.landMask, CompOp.sourceOver, m.draw⟩,
         ⟨TargetId.map, CompOp.sourceOver, v.draw⟩]⟩
  | PaintMode.river =>
      let org : ℚ × RiverState × Rand :=
        if s.isOrganicRiver then
          let rv := riverAdvance e.riverState x y r
          (radius * rv.1.currentWidthFactor, rv.1, rv.2)
        else (radius, e.riverState, r)
      let fr := org.1
      let syncRotation : ℝ := ((org.2.2 0 : ℚ) : ℝ) * (2 * Real.pi)
      let r₁ := org.2.2.shift 1
      let m := eraseFromMask raster st e.maskLayer x y fr s syncRotation r₁
      let v := drawStamp raster CompOp.destinationOut m.stamp
        (getLayer e.mapCtx) x y fr "black" 1 s.roughness s.blurWidth none
        (some 100) (some syncRotation) m.rand
      let e₁ :=
        { e with maskLayer := m.layer, mapCtx := some v.layer, riverState := org.2.1 }
      let e₂ := renderTextureLayer e₁ (some (x, y, ((fr : ℚ) : ℝ) * 3))
      ⟨setLast e₂ x y, v.stamp, v.rand,
        [⟨TargetId.landMask, CompOp.destinationOut, m.draw⟩,
         ⟨TargetId.map, CompOp.destinationOut, v.draw⟩]⟩
  | PaintMode.texture =>
      match s.activeTexture with
      | some _ =>
          let op := if s.isTextureEraser then CompOp.destinationOut
            else CompOp.sourceOver
          let m := drawStamp raster op st e.textureMaskLayer x y radius
            "white" opacity s.roughness s.blurWidth (some 0)
            (some s.blurWidth) none r
          let e₁ := { e with textureMaskLayer := m.layer }
          let e₂ := renderTextureLayer e₁ (some (x, y, ((updateRad : ℚ) : ℝ)))
          ⟨setLast e₂ x y, m.stamp, m.rand,
            [⟨TargetId.textureMask, op, m.draw⟩]⟩
      | none =>
          let m := drawStamp raster CompOp.sourceAtop st
            (getLayer e.mapCtx) x y radius s.selectedTexture opacity
            s.roughness s.blurWidth (some 0) (some s.blurWidth) none r
          ⟨setLast { e with mapCtx := some m.layer } x y, m.stamp, m.rand,
            [⟨TargetId.map, CompOp.sourceAtop, m.draw⟩]⟩
  | _ => ⟨setLast e x y, st, r, []⟩

end RpgMap

namespace RpgMap

/-- The mark-placement loop of `MapEngine.drawPathSegment`:
`while (currentDist <= dist) { place(currentDist); currentDist += spacing }`,
returning the placed distances (in order) and the final
`currentDist - dist` remainder.  Termination uses `spacing ≥ 1`, which the
caller guarantees via `Math.max(1, ...)`. -/
noncomputable def pathLoop (S : ℝ) (hS : 1 ≤ S) (L : ℝ) (c : ℝ) :
    List ℝ × ℝ :=
  if h : c ≤ L then
    let rest := pathLoop S hS L (c + S)
    (c :: rest.1, rest.2)
  else ([], c - L)
termination_by (⌈L - c⌉ + 1).toNat
decreasing_by
  have h1 : (0 : ℝ) ≤ L - c := by linarith
  have h2 : L - (c + S) ≤ L - c - 1 := by linarith
  have h3 : ⌈L - (c + S)⌉ ≤ ⌈L - c - 1⌉ := Int.ceil_mono h2
  have h4 : ⌈L - c - 1⌉ = ⌈L - c⌉ - 1 := Int.ceil_sub_one (L - c)
  have h5 : (0 : ℤ) ≤ ⌈L - c⌉ := Int.ceil_nonneg h1
  omega

/-- Closed form for the number of marks `pathLoop` places when started at
`c`: zero when the start already exceeds the segment, else one plus the
number of whole `S`-steps that fit in `L - c`. -/
noncomputable def markCount (c S L : ℝ) : ℕ :=
  if c ≤ L then (⌊(L - c) / S⌋).toNat + 1 else 0

/-- `Math.atan2(y, x)`, the direction angle used to rotate dashed marks. -/
noncomputable def atan2 (y x : ℝ) : ℝ := Complex.arg ⟨x, y⟩

/-- One path mark as handed to the path-layer rasterizer: its center, the
segment direction angle (used by the dashed style), and the styling the
code reads from the state (`pathStyle`, `brushSize` for the dot diameter and
dash geometry, `pathColor`, `brushBlur/100` as global alpha). -/
structure PathMark where
  pos : ℝ × ℝ
  angle : ℝ
  style : PathStyle
  brushSize : ℚ
  color : String
  alpha : ℚ

/-- `MapEngine.drawPathSegment(x1, y1, x2, y2, state)`: no-op without a
bound path context or for segments shorter than 0.5px; otherwise step from
`pathRemainder` along the segment at `spacing = max(1, brushSize·pathSpacing)`
intervals, rasterize a mark at every step, and store the overshoot as the new
remainder.  Returns the engine and the placed mark centers. -/
noncomputable def drawPathSegment (markRaster : PathMark → Layer → Layer)
    (e : Engine) (x1 y1 x2 y2 : ℝ) (s : AppState) :
    Engine × List (ℝ × ℝ) :=
  match e.pathCtx with
  | none => (e, [])
  | some P =>
      let dx := x2 - x1
      let dy := y2 - y1
      let dist := Real.sqrt (dx ^ 2 + dy ^ 2)
      let spacing : ℝ := ((max 1 (s.brushSize * s.pathSpacing) : ℚ) : ℝ)
      if dist < 0.5 then (e, [])
      else
        let nx := dx / dist
        let ny := dy / dist
        let angle := atan2 dy dx
        let run := pathLoop spacing
          (by show (1 : ℝ) ≤ ((max 1 (s.brushSize * s.pathSpacing) : ℚ) : ℝ)
              exact_mod_cast le_max_left 1 (s.brushSize * s.pathSpacing))
          dist e.pathRemainder
        let marks := run.1.map fun c => (x1 + nx * c, y1 + ny * c)
        let P' := marks.foldl
          (fun acc m =>
            markRaster ⟨m, angle, s.pathStyle, s.brushSize, s.pathColor,
              s.brushBlur / 100⟩ acc) P
        ({ e with pathCtx := some P', pathRemainder := run.2 }, marks)

/-- The configuration of one shadow-offset draw in `updateShallowWater`:
the glow color and alpha fed to `Utils.hexToRgba` (which is a function of
exactly these two arguments), the shadow blur, and the off-canvas offset. -/
structure ShadowCfg where
  color : String
  alpha : ℚ
  blur : ℚ
  offsetX : ℚ
  offsetY : ℚ
deriving DecidableEq

/-- `MapEngine.updateShallowWater(shallowColor, isEnabled)`: clear the water
layer; when enabled, draw the land mask three times with the solid-shelf
shadow configuration and once with the soft-fade configuration.  The
blur/offset shadow rendering is the abstract `shadowDraw` parameter, applied
to the land mask, the configuration and the current water bitmap. -/
def updateShallowWater (shadowDraw : Layer → ShadowCfg → Layer → Layer)
    (e : Engine) (shallowColor : String) (isEnabled : Bool) : Engine :=
  match e.waterCtx with
  | none => e
  | some W =>
      let W₁ := clearRect e.width e.height W 0 0 e.width e.height
      if isEnabled = false then { e with waterCtx := some W₁ }
      else
        let cfg₁ : ShadowCfg := ⟨shallowColor, 1, 35, 20000, 0⟩
        let cfg₂ : ShadowCfg := ⟨shallowColor, 0.4, 80, 20000, 0⟩
        let W₂ := shadowDraw e.maskLayer cfg₁
          (shadowDraw e.maskLayer cfg₁ (shadowDraw e.maskLayer cfg₁ W₁))
        { e with waterCtx := some (shadowDraw e.maskLayer cfg₂ W₂) }

/-- The snapshot produced by `MapEngine.getSnapshot`: four independently
encoded raster blobs (the `textureMask` field is optional in the on-disk
format for backward compatibility). -/
structure SnapshotT (Blob : Type) where
  map : Blob
  mask : Blob
  textureMask : Option Blob
  path : Blob

/-- A decoded raster image (dimensions plus pixels). -/
structure Img where
  w : ℕ
  h : ℕ
  pix : Layer

/-- `ctx.drawImage(img, 0, 0)` with default `source-over` compositing:
composite the image over the canvas on the overlap of the two. -/
def drawImgAt (cw ch : ℕ) (img : Img) (dst : Layer) : Layer :=
  fun i j =>
    if inCanvas cw ch i j ∧ inCanvas img.w img.h i j then
      RGBA.over (img.pix i j) (dst i j)
    else dst i j

/-- The `loadLayer` helper of `MapEngine.loadSnapshot`: once the blob's image
decodes, `clearRect(0, 0, w, h)` then draw it at the origin. -/
def loadLayer {Blob : Type} (decodeImg : Blob → Img) (w h : ℕ)
    (cw ch : ℕ) (b : Blob) (L : Layer) : Layer :=
  drawImgAt cw ch (decodeImg b) (clearRect cw ch L 0 0 (w : ℤ) (h : ℤ))

/-- `MapEngine.getSnapshot()`: `null` before `init` binds `mapCtx`; otherwise
encode the visible map layer, the land mask, the texture mask and the path
layer (the code non-null-asserts `pathCtx`, which `init` always binds with
`mapCtx`; it is read here with a blank default). -/
def getSnapshot {Blob : Type} (toDataURL : ℕ → ℕ → Layer → Blob)
    (e : Engine) : Option (SnapshotT Blob) :=
  if e.mapCtx.isNone then none
  else
    some ⟨toDataURL e.width e.height (getLayer e.mapCtx),
      toDataURL e.width e.height e.maskLayer,
      some (toDataURL e.width e.height e.textureMaskLayer),
      toDataURL e.width e.height (getLayer e.pathCtx)⟩

/-- `MapEngine.loadSnapshot(snap, w, h)`: decode and restore the four
layers; the land-mask and texture-mask decode callbacks each trigger a full
`renderTextureLayer` recompute; a snapshot without a `textureMask` blob
clears the texture mask instead.  The four asynchronous decodes are modelled
as completing in source order (the claims proved below only concern the
state after all four completed). -/
noncomputable def loadSnapshot {Blob : Type} (decodeImg : Blob → Img)
    (e : Engine) (snap : SnapshotT Blob) (w h : ℕ) : Engine :=
  let ll : Blob → Layer → Layer := loadLayer decodeImg w h e.width e.height
  let e₁ :=
    match e.mapCtx with
    | some M => { e with mapCtx := some (ll snap.map M) }
    | none => e
  let e₂ :=
    match e₁.pathCtx with
    | some P => { e₁ with pathCtx := some (ll snap.path P) }
    | none => e₁
  let e₃ := renderTextureLayer { e₂ with maskLayer := ll snap.mask e₂.maskLayer } none
  match snap.textureMask with
  | some b =>
      renderTextureLayer { e₃ with textureMaskLayer := ll b e₃.textureMaskLayer } none
  | none =>
      { e₃ with textureMaskLayer :=
          clearRect e.width e.height e₃.textureMaskLayer 0 0 (w : ℤ) (h : ℤ) }

/-- The single smoothing step of the organic river width
(`currentWidthFactor += (targetWidthFactor - currentWidthFactor) * 0.15`). -/
def riverBlend (c t : ℚ) : ℚ := c + (t - c) * 0.15

/-- Vertex `i` of the polygon silhouette, relative to the stamp canvas
center: angle `i/40·2π`, radius `radii[i]`. -/
noncomputable def polyVertex (radii : List ℚ) (i : ℕ) : ℝ × ℝ :=
  (Real.cos ((i : ℝ) / 40 * (2 * Real.pi)) * ((radii.getD i 0 : ℚ) : ℝ),
   Real.sin ((i : ℝ) / 40 * (2 * Real.pi)) * ((radii.getD i 0 : ℚ) : ℝ))

/-- The region (relative to the stamp canvas center) covered by the stamp
silhouette: the disk for the smooth branch, and for the jittered branch the
nonzero-winding fill of the radial polygon, which for its angularly ordered
vertices is the union of the center-fanned triangles. -/
noncomputable def maskRegion (m : StochasticStamp.MaskDesc) : Set (ℝ × ℝ) :=
  match m.shape with
  | StochasticStamp.StampShape.blank => ∅
  | StochasticStamp.StampShape.circle =>
      {p : ℝ × ℝ | p.1 ^ 2 + p.2 ^ 2 ≤ ((m.size : ℚ) : ℝ) ^ 2}
  | StochasticStamp.StampShape.polygon radii =>
      ⋃ i ∈ Finset.range 40,
        convexHull ℝ {(0, 0), polyVertex radii i, polyVertex radii (i + 1)}

/-- The set of points of the target a stamp draw covers: the mask region
translated to `(x, y)` and rotated by the draw's rotation — the silhouette
its rasterization fills. -/
noncomputable def silhouette (d : StampDraw) : Set (ℝ × ℝ) :=
  Set.image
    (fun p : ℝ × ℝ =>
      (d.x + Real.cos d.rot * p.1 - Real.sin d.rot * p.2,
       d.y + Real.sin d.rot * p.1 + Real.cos d.rot * p.2))
    (maskRegion d.mask)

end RpgMap

namespace RpgMap

/-- A rasterizer that ignores draws (one admissible instantiation of the
abstract rasterizer parameters, used to instantiate theorems on concrete
inputs). -/
def idRaster : StampDraw → CompOp → Layer → Layer := fun _ _ L => L

/-- A shadow renderer that ignores draws. -/
def idShadow : Layer → ShadowCfg → Layer → Layer := fun _ _ L => L

/-- A path-mark rasterizer that ignores marks. -/
def idMark : PathMark → Layer → Layer := fun _ L => L

/-- A concrete river state for instantiations. -/
def testRiver : RiverState := ⟨1, 1, 0, 0, 0, 0⟩

/-- A concrete initialized engine (all six contexts bound, 4×4 canvas). -/
def testEngine : Engine :=
  { width := 4, height := 4, mapCtx := some Layer.empty,
    waterCtx := some Layer.empty, textureLayerCtx := some Layer.empty,
    pathCtx := some Layer.empty, assetCtx := some Layer.empty,
    textCtx := some Layer.empty, maskLayer := Layer.empty,
    textureMaskLayer := Layer.empty, currentTextureImg := none,
    pathRemainder := 0, riverState := testRiver }

/-- The same engine before `init` bound any visible-layer context. -/
def testEngineUninit : Engine :=
  { testEngine with
    mapCtx := none
    waterCtx := none
    textureLayerCtx := none
    pathCtx := none
    assetCtx := none
    textCtx := none }

/-- A concrete 2×2 solid-white pattern image. -/
def testImg : PatternImg := ⟨2, 2, fun _ _ => ⟨1, 1, 1, 1⟩⟩

/-- A concrete app state for instantiations. -/
def testState : AppState :=
  { paintMode := PaintMode.texture, brushSize := 10, brushBlur := 100,
    blurWidth := 100, roughness := 0, terrainColor := "#2d5a27",
    selectedTexture := "#ffffff", activeTexture := none,
    isTextureEraser := false, isOrganicRiver := true,
    pathColor := "#000000", pathSpacing := 5/2,
    pathStyle := PathStyle.dots }

/-- The all-zero random stream. -/
def zeroRand : Rand := fun _ => 0

/-- The concrete app state switched to organic river mode. -/
def testStateRiver : AppState :=
  { testState with paintMode := PaintMode.river }

/-- The concrete app state switched to terrain mode. -/
def testStateTerrain : AppState :=
  { testState with paintMode := PaintMode.terrain }

/-- The concrete engine with the white test pattern active. -/
def testEngineTex : Engine :=
  { testEngine with currentTextureImg := some testImg }

end RpgMap

/-! ## Theorems -/

namespace RpgMap

open StochasticStamp

/-- After any `generate` call the offscreen canvas exists. -/
theorem generate_offMask_isSome (st : StampState) (size ro bl : ℚ)
    (rOv bOv : Option ℚ) (r : Rand) :
    ((generate st size ro bl rOv bOv r).1).offMask.isSome := by
  unfold generate
  by_cases h0 : st.offMask = none <;>
    simp only [h0, if_true, if_false, reduceIte] <;>
    split <;> simp_all [Option.isSome]
  cases hm : st.offMask <;> simp_all

/-- After any `generate` call the cache key equals the call's effective
key. -/
theorem generate_key (st : StampState) (size ro bl : ℚ)
    (rOv bOv : Option ℚ) (r : Rand) :
    ((generate st size ro bl rOv bOv r).1).key = effKey size ro bl rOv bOv := by
  unfold generate
  by_cases h0 : st.offMask = none <;>
    simp only [h0, if_true, if_false, reduceIte] <;>
    split <;>
    simp_all [StampState.key, effKey, Prod.ext_iff]

/-- Claim C1: a second `generate` call whose effective
`(size, roughness, falloffWidth)` key equals the first call's key returns
with the cache state — mask and key — bit-identical (and consumes no
randomness); a second call whose effective key differs in any component
regenerates the mask from the new parameters and replaces the cached key. -/
theorem stamp_cache_single_slot (st₀ : StampState)
    (size₁ ro₁ bl₁ : ℚ) (rOv₁ bOv₁ : Option ℚ) (r₁ : Rand)
    (size₂ ro₂ bl₂ : ℚ) (rOv₂ bOv₂ : Option ℚ) (r₂ : Rand) :
    (effKey size₂ ro₂ bl₂ rOv₂ bOv₂ = effKey size₁ ro₁ bl₁ rOv₁ bOv₁ →
      generate (generate st₀ size₁ ro₁ bl₁ rOv₁ bOv₁ r₁).1
          size₂ ro₂ bl₂ rOv₂ bOv₂ r₂
        = ((generate st₀ size₁ ro₁ bl₁ rOv₁ bOv₁ r₁).1, r₂)) ∧
    (effKey size₂ ro₂ bl₂ rOv₂ bOv₂ ≠ effKey size₁ ro₁ bl₁ rOv₁ bOv₁ →
      ((generate (generate st₀ size₁ ro₁ bl₁ rOv₁ bOv₁ r₁).1
          size₂ ro₂ bl₂ rOv₂ bOv₂ r₂).1).offMask
        = some (genMask size₂ (effRough ro₂ rOv₂) (effBlur bl₂ bOv₂) r₂).1 ∧
      ((generate (generate st₀ size₁ ro₁ bl₁ rOv₁ bOv₁ r₁).1
          size₂ ro₂ bl₂ rOv₂ bOv₂ r₂).1).key
        = effKey size₂ ro₂ bl₂ rOv₂ bOv₂) := by
  have hkey := generate_key st₀ size₁ ro₁ bl₁ rOv₁ bOv₁ r₁
  have hsome := generate_offMask_isSome st₀ size₁ ro₁ bl₁ rOv₁ bOv₁ r₁
  set s₁ := (generate st₀ size₁ ro₁ bl₁ rOv₁ bOv₁ r₁).1 with hs₁
  have hnn : ¬ s₁.offMask = none := Option.ne_none_iff_isSome.mpr hsome
  constructor
  · intro heq
    have h1 : size₂ = s₁.lastSize ∧ effRough ro₂ rOv₂ = s₁.lastRoughness ∧
        effBlur bl₂ bOv₂ = s₁.lastBlurWidth := by
      have := hkey
      rw [← heq] at this
      simp [StampState.key, effKey, Prod.ext_iff] at this
      exact ⟨this.1.symm, this.2.1.symm, this.2.2.symm⟩
    unfold generate
    simp [hnn, h1]
  · intro hne
    have h1 : ¬ (size₂ = s₁.lastSize ∧ effRough ro₂ rOv₂ = s₁.lastRoughness ∧
        effBlur bl₂ bOv₂ = s₁.lastBlurWidth) := by
      intro hc
      apply hne
      rw [← hkey]
      simp [StampState.key, effKey, Prod.ext_iff, hc.1, hc.2.1, hc.2.2]
    unfold generate
    simp [hnn, h1, StampState.key, effKey]

/-- Witness for C1: at `radius 15, roughness 40, falloff 100` a repeated call
is a cache hit; bumping the radius to 16 forces regeneration. -/
theorem stamp_cache_single_slot_witness :
    ((effKey 15 40 100 none none = effKey 15 40 100 none none →
      generate (generate initialState 15 40 100 none none zeroRand).1
          15 40 100 none none zeroRand
        = ((generate initialState 15 40 100 none none zeroRand).1,
           zeroRand)) ∧ True) ∧
    ((effKey 16 40 100 none none ≠ effKey 15 40 100 none none →
      ((generate (generate initialState 15 40 100 none none zeroRand).1
          16 40 100 none none zeroRand).1).offMask
        = some (genMask 16 (effRough 40 none) (effBlur 100 none)
            zeroRand).1 ∧
      ((generate (generate initialState 15 40 100 none none zeroRand).1
          16 40 100 none none zeroRand).1).key
        = effKey 16 40 100 none none) ∧ True) := by
  constructor
  · exact ⟨(stamp_cache_single_slot initialState 15 40 100 none none zeroRand
      15 40 100 none none zeroRand).1, trivial⟩
  · refine ⟨(stamp_cache_single_slot initialState 15 40 100 none none zeroRand
      16 40 100 none none zeroRand).2, trivial⟩

end RpgMap

namespace RpgMap

open StochasticStamp

/-- `renderTextureLayer` writes only the visible texture layer: every
other engine field is untouched. -/

@[simp]
theorem renderTextureLayer_riverState (e : Engine) (d : Option (ℝ × ℝ × ℝ)) :
    (renderTextureLayer e d).riverState = e.riverState := by
  unfold renderTextureLayer
  rcases e.textureLayerCtx with _ | L
  · rfl
  · rcases e.currentTextureImg with _ | img
    · rcases d with _ | ⟨dx, dy, dr⟩ <;> rfl
    · rcases processedRect e.width e.height d with _ | ⟨r1, r2, r3, r4⟩ <;> rfl


@[simp]
theorem renderTextureLayer_maskLayer (e : Engine) (d : Option (ℝ × ℝ × ℝ)) :
    (renderTextureLayer e d).maskLayer = e.maskLayer := by
  unfold renderTextureLayer
  rcases e.textureLayerCtx with _ | L
  · rfl
  · rcases e.currentTextureImg with _ | img
    · rcases d with _ | ⟨dx, dy, dr⟩ <;> rfl
    · rcases processedRect e.width e.height d with _ | ⟨r1, r2, r3, r4⟩ <;> rfl


@[simp]
theorem renderTextureLayer_textureMaskLayer (e : Engine) (d : Option (ℝ × ℝ × ℝ)) :
    (renderTextureLayer e d).textureMaskLayer = e.textureMaskLayer := by
  unfold renderTextureLayer
  rcases e.textureLayerCtx with _ | L
  · rfl
  · rcases e.currentTextureImg with _ | img
    · rcases d with _ | ⟨dx, dy, dr⟩ <;> rfl
    · rcases processedRect e.width e.height d with _ | ⟨r1, r2, r3, r4⟩ <;> rfl


@[simp]
theorem renderTextureLayer_mapCtx (e : Engine) (d : Option (ℝ × ℝ × ℝ)) :
    (renderTextureLayer e d).mapCtx = e.mapCtx := by
  unfold renderTextureLayer
  rcases e.textureLayerCtx with _ | L
  · rfl
  · rcases e.currentTextureImg with _ | img
    · rcases d with _ | ⟨dx, dy, dr⟩ <;> rfl
    · rcases processedRect e.width e.height d with _ | ⟨r1, r2, r3, r4⟩ <;> rfl


@[simp]
theorem renderTextureLayer_pathCtx (e : Engine) (d : Option (ℝ × ℝ × ℝ)) :
    (renderTextureLayer e d).pathCtx = e.pathCtx := by
  unfold renderTextureLayer
  rcases e.textureLayerCtx with _ | L
  · rfl
  · rcases e.currentTextureImg with _ | img
    · rcases d with _ | ⟨dx, dy, dr⟩ <;> rfl
    · rcases processedRect e.width e.height d with _ | ⟨r1, r2, r3, r4⟩ <;> rfl


@[simp]
theorem renderTextureLayer_waterCtx (e : Engine) (d : Option (ℝ × ℝ × ℝ)) :
    (renderTextureLayer e d).waterCtx = e.waterCtx := by
  unfold renderTextureLayer
  rcases e.textureLayerCtx with _ | L
  · rfl
  · rcases e.currentTextureImg with _ | img
    · rcases d with _ | ⟨dx, dy, dr⟩ <;> rfl
    · rcases processedRect e.width e.height d with _ | ⟨r1, r2, r3, r4⟩ <;> rfl


@[simp]
theorem renderTextureLayer_width (e : Engine) (d : Option (ℝ × ℝ × ℝ)) :
    (renderTextureLayer e d).width = e.width := by
  unfold renderTextureLayer
  rcases e.textureLayerCtx with _ | L
  · rfl
  · rcases e.currentTextureImg with _ | img
    · rcases d with _ | ⟨dx, dy, dr⟩ <;> rfl
    · rcases processedRect e.width e.height d with _ | ⟨r1, r2, r3, r4⟩ <;> rfl


@[simp]
theorem renderTextureLayer_height (e : Engine) (d : Option (ℝ × ℝ × ℝ)) :
    (renderTextureLayer e d).height = e.height := by
  unfold renderTextureLayer
  rcases e.textureLayerCtx with _ | L
  · rfl
  · rcases e.currentTextureImg with _ | img
    · rcases d with _ | ⟨dx, dy, dr⟩ <;> rfl
    · rcases processedRect e.width e.height d with _ | ⟨r1, r2, r3, r4⟩ <;> rfl


@[simp]
theorem renderTextureLayer_pathRemainder (e : Engine) (d : Option (ℝ × ℝ × ℝ)) :
    (renderTextureLayer e d).pathRemainder = e.pathRemainder := by
  unfold renderTextureLayer
  rcases e.textureLayerCtx with _ | L
  · rfl
  · rcases e.currentTextureImg with _ | img
    · rcases d with _ | ⟨dx, dy, dr⟩ <;> rfl
    · rcases processedRect e.width e.height d with _ | ⟨r1, r2, r3, r4⟩ <;> rfl


@[simp]
theorem renderTextureLayer_currentTextureImg (e : Engine) (d : Option (ℝ × ℝ × ℝ)) :
    (renderTextureLayer e d).currentTextureImg = e.currentTextureImg := by
  unfold renderTextureLayer
  rcases e.textureLayerCtx with _ | L
  · rfl
  · cases hI : e.currentTextureImg with
    | none => rcases d with _ | ⟨dx, dy, dr⟩ <;> rfl
    | some img =>
      cases hp : processedRect e.width e.height d with
      | none => exact hI
      | some q =>
        obtain ⟨r1, r2, r3, r4⟩ := q
        rfl


/-- Claim C2: in river mode with organic river enabled a dab sets
`currentWidthFactor` to
`currentWidthFactor + 0.15·(targetWidthFactor - currentWidthFactor)` (with
`targetWidthFactor` the possibly just re-seeded target); and for any fixed
target that blend step contracts the distance to the target by exactly
`1 - 0.15`, lands between the old value and the target, and never overshoots
the target. -/
theorem river_width_smoothing (raster : StampDraw → CompOp → Layer → Layer)
    (e : Engine) (st : StampState) (x y : ℝ) (s : AppState) (r : Rand)
    (hinit : e.mapCtx.isSome) (hmode : s.paintMode = PaintMode.river)
    (horg : s.isOrganicRiver = true) :
    ((applyPaint raster e st x y s r).engine.riverState.currentWidthFactor
        = riverBlend e.riverState.currentWidthFactor
            ((applyPaint raster e st x y s r).engine.riverState.targetWidthFactor))
    ∧ (∀ c t : ℚ,
        |t - riverBlend c t| = (1 - 0.15) * |t - c|
        ∧ min c t ≤ riverBlend c t ∧ riverBlend c t ≤ max c t) := by
  constructor
  · obtain ⟨M, hM⟩ := Option.isSome_iff_exists.mp hinit
    simp only [applyPaint, hM, hmode, horg, Option.isNone_some,
      Bool.false_eq_true, if_false, if_true, reduceIte, setLast,
      renderTextureLayer_riverState, riverAdvance, riverBlend]
  · intro c t
    refine ⟨?_, ?_, ?_⟩
    · have h : t - riverBlend c t = (t - c) * (1 - 0.15) := by
        unfold riverBlend; ring
      rw [h, abs_mul, mul_comm]
      norm_num
    · rcases le_total c t with h | h
      · rw [min_eq_left h]; unfold riverBlend; linarith
      · rw [min_eq_right h]; unfold riverBlend; linarith
    · rcases le_total c t with h | h
      · rw [max_eq_right h]; unfold riverBlend; linarith
      · rw [max_eq_left h]; unfold riverBlend; linarith

end RpgMap

namespace RpgMap

/-- Witness for C2 at a concrete river dab. -/
theorem river_width_smoothing_witness :
    (testEngine.mapCtx.isSome
      ∧ testStateRiver.paintMode = PaintMode.river
      ∧ testStateRiver.isOrganicRiver = true)
    ∧ ((applyPaint idRaster testEngine StochasticStamp.initialState 3 4
          testStateRiver zeroRand).engine.riverState.currentWidthFactor
        = riverBlend testEngine.riverState.currentWidthFactor
            ((applyPaint idRaster testEngine StochasticStamp.initialState 3 4
              testStateRiver zeroRand).engine.riverState.targetWidthFactor))
    ∧ (|(1 : ℚ) - riverBlend 0 1| = (1 - 0.15) * |1 - 0|
        ∧ min (0 : ℚ) 1 ≤ riverBlend 0 1 ∧ riverBlend (0 : ℚ) 1 ≤ max 0 1) := by
  have h := river_width_smoothing idRaster testEngine
    StochasticStamp.initialState 3 4 testStateRiver zeroRand rfl rfl rfl
  exact ⟨⟨rfl, rfl, rfl⟩, h.1, h.2 0 1⟩

end RpgMap

namespace RpgMap

/-- `updateShallowWater` never touches the land mask. -/
theorem updateShallowWater_maskLayer (sd : Layer → ShadowCfg → Layer → Layer)
    (e : Engine) (c : String) (en : Bool) :
    (updateShallowWater sd e c en).maskLayer = e.maskLayer := by
  unfold updateShallowWater
  rcases e.waterCtx with _ | W
  · rfl
  · cases en <;> rfl

/-- `updateShallowWater` never touches the texture mask. -/
theorem updateShallowWater_textureMaskLayer
    (sd : Layer → ShadowCfg → Layer → Layer) (e : Engine) (c : String)
    (en : Bool) :
    (updateShallowWater sd e c en).textureMaskLayer = e.textureMaskLayer := by
  unfold updateShallowWater
  rcases e.waterCtx with _ | W
  · rfl
  · cases en <;> rfl

/-- Claim C8: before `init` binds the layer contexts, every draw entry point
(`applyPaint`, `drawPathSegment`, `updateShallowWater`) is a silent no-op —
the engine state, including `riverState.lastX/lastY` and `pathRemainder`, is
returned completely unchanged, the stamp cache and random stream are not
consumed, and no draw is traced — and `getSnapshot` returns `null`. -/
theorem uninitialized_draws_are_noops {Blob : Type}
    (raster : StampDraw → CompOp → Layer → Layer)
    (markRaster : PathMark → Layer → Layer)
    (shadowDraw : Layer → ShadowCfg → Layer → Layer)
    (toDataURL : ℕ → ℕ → Layer → Blob)
    (e : Engine) (st : StochasticStamp.StampState) (x y : ℝ) (s : AppState)
    (r : Rand) (x1 y1 x2 y2 : ℝ) (color : String) (enabled : Bool)
    (hmap : e.mapCtx = none) (hwater : e.waterCtx = none)
    (hpath : e.pathCtx = none) :
    applyPaint raster e st x y s r = ⟨e, st, r, []⟩
    ∧ drawPathSegment markRaster e x1 y1 x2 y2 s = (e, [])
    ∧ updateShallowWater shadowDraw e color enabled = e
    ∧ getSnapshot toDataURL e = none := by
  refine ⟨?_, ?_, ?_, ?_⟩
  · unfold applyPaint
    rw [hmap]
    rfl
  · unfold drawPathSegment
    rw [hpath]
  · unfold updateShallowWater
    rw [hwater]
  · unfold getSnapshot
    rw [hmap]
    rfl

/-- Witness for C8 on the concrete uninitialized engine. -/
theorem uninitialized_draws_are_noops_witness :
    (testEngineUninit.mapCtx = none ∧ testEngineUninit.waterCtx = none
      ∧ testEngineUninit.pathCtx = none)
    ∧ applyPaint idRaster testEngineUninit StochasticStamp.initialState 1 2
        testState zeroRand
      = ⟨testEngineUninit, StochasticStamp.initialState, zeroRand, []⟩
    ∧ drawPathSegment idMark testEngineUninit 0 0 9 0 testState
      = (testEngineUninit, [])
    ∧ updateShallowWater idShadow testEngineUninit "#a5f3fc" true
      = testEngineUninit
    ∧ getSnapshot (fun _ _ L => L) testEngineUninit = none := by
  have h := uninitialized_draws_are_noops idRaster idMark idShadow
    (fun _ _ L => L) testEngineUninit StochasticStamp.initialState 1 2
    testState zeroRand 0 0 9 0 "#a5f3fc" true rfl rfl rfl
  exact ⟨⟨rfl, rfl, rfl⟩, h.1, h.2.1, h.2.2.1, h.2.2.2⟩

end RpgMap

namespace RpgMap

open StochasticStamp

/-- Claim C7: the land mask is mutated only by terrain dabs (one additive
`source-over` stamp) and river dabs (one subtractive `destination-out`
stamp) — texture-mode dabs, with or without an active pattern, leave it
unchanged — the texture mask is mutated only by texture-mode dabs with an
active pattern (one stamp, additive, or subtractive in eraser mode), and
`renderTextureLayer` and `updateShallowWater` read but never mutate either
mask. -/
theorem mask_mutation_discipline
    (raster : StampDraw → CompOp → Layer → Layer)
    (shadowDraw : Layer → ShadowCfg → Layer → Layer)
    (e : Engine) (st : StampState) (x y : ℝ) (s : AppState) (r : Rand)
    (dirty : Option (ℝ × ℝ × ℝ)) (color : String) (enabled : Bool)
    (hinit : e.mapCtx.isSome) :
    (s.paintMode ≠ PaintMode.terrain → s.paintMode ≠ PaintMode.river →
      (applyPaint raster e st x y s r).engine.maskLayer = e.maskLayer)
    ∧ (s.paintMode ≠ PaintMode.texture ∨ s.activeTexture = none →
      (applyPaint raster e st x y s r).engine.textureMaskLayer
        = e.textureMaskLayer)
    ∧ (s.paintMode = PaintMode.terrain →
      ∃ d, (applyPaint raster e st x y s r).engine.maskLayer
        = raster d CompOp.sourceOver e.maskLayer)
    ∧ (s.paintMode = PaintMode.river →
      ∃ d, (applyPaint raster e st x y s r).engine.maskLayer
        = raster d CompOp.destinationOut e.maskLayer)
    ∧ (s.paintMode = PaintMode.texture → s.activeTexture.isSome →
      ∃ d, (applyPaint raster e st x y s r).engine.textureMaskLayer
        = raster d
            (if s.isTextureEraser then CompOp.destinationOut
             else CompOp.sourceOver)
            e.textureMaskLayer)
    ∧ ((renderTextureLayer e dirty).maskLayer = e.maskLayer
      ∧ (renderTextureLayer e dirty).textureMaskLayer = e.textureMaskLayer)
    ∧ ((updateShallowWater shadowDraw e color enabled).maskLayer
        = e.maskLayer
      ∧ (updateShallowWater shadowDraw e color enabled).textureMaskLayer
        = e.textureMaskLayer) := by
  obtain ⟨M, hM⟩ := Option.isSome_iff_exists.mp hinit
  refine ⟨?_, ?_, ?_, ?_, ?_, ⟨renderTextureLayer_maskLayer e dirty,
    renderTextureLayer_textureMaskLayer e dirty⟩,
    ⟨updateShallowWater_maskLayer shadowDraw e color enabled,
     updateShallowWater_textureMaskLayer shadowDraw e color enabled⟩⟩
  · intro hT hR
    cases hmode : s.paintMode with
    | terrain => exact absurd hmode hT
    | river => exact absurd hmode hR
    | texture =>
      cases hat : s.activeTexture with
      | none => simp [applyPaint, hM, hmode, hat, setLast]
      | some src => simp [applyPaint, hM, hmode, hat, setLast]
    | sea => simp [applyPaint, hM, hmode, setLast]
    | path => simp [applyPaint, hM, hmode, setLast]
    | noneMode => simp [applyPaint, hM, hmode, setLast]
  · intro hb
    cases hmode : s.paintMode with
    | terrain => simp [applyPaint, hM, hmode, setLast]
    | river => simp [applyPaint, hM, hmode, setLast]
    | texture =>
      have hat : s.activeTexture = none := by
        rcases hb with hb | hb
        · exact absurd hmode hb
        · exact hb
      simp [applyPaint, hM, hmode, hat, setLast]
    | sea => simp [applyPaint, hM, hmode, setLast]
    | path => simp [applyPaint, hM, hmode, setLast]
    | noneMode => simp [applyPaint, hM, hmode, setLast]
  · intro hmode
    simp only [applyPaint, hM, hmode, Option.isNone_some,
      Bool.false_eq_true, if_false, reduceIte, drawToMask, drawStamp,
      setLast, renderTextureLayer_maskLayer]
    exact ⟨_, rfl⟩
  · intro hmode
    simp only [applyPaint, hM, hmode, Option.isNone_some,
      Bool.false_eq_true, if_false, reduceIte, eraseFromMask, drawStamp,
      setLast, renderTextureLayer_maskLayer]
    exact ⟨_, rfl⟩
  · intro hmode hat
    obtain ⟨src, hsrc⟩ := Option.isSome_iff_exists.mp hat
    simp only [applyPaint, hM, hmode, hsrc, Option.isNone_some,
      Bool.false_eq_true, if_false, reduceIte, drawStamp, setLast,
      renderTextureLayer_textureMaskLayer]
    exact ⟨_, rfl⟩

end RpgMap

namespace RpgMap

/-- Witness for C7: a concrete texture-mode dab leaves the land mask
untouched, and a concrete terrain dab applies one additive stamp to it. -/
theorem mask_mutation_discipline_witness :
    testEngine.mapCtx.isSome
    ∧ (applyPaint idRaster testEngine StochasticStamp.initialState 1 1
        testState zeroRand).engine.maskLayer = testEngine.maskLayer
    ∧ (∃ d, (applyPaint idRaster testEngine StochasticStamp.initialState 1 1
        testStateTerrain zeroRand).engine.maskLayer
          = idRaster d CompOp.sourceOver testEngine.maskLayer) := by
  have h1 := mask_mutation_discipline idRaster idShadow testEngine
    StochasticStamp.initialState 1 1 testState zeroRand none "#a5f3fc" true
    rfl
  have h2 := mask_mutation_discipline idRaster idShadow testEngine
    StochasticStamp.initialState 1 1 testStateTerrain zeroRand none
    "#a5f3fc" true rfl
  exact ⟨rfl, h1.1 (by decide) (by decide), h2.2.2.1 rfl⟩

end RpgMap

namespace RpgMap

open StochasticStamp

/-- A `generate` call whose effective key equals the cached key (with the
offscreen canvas already allocated) is a no-op. -/
theorem generate_cache_hit (st : StampState) (size ro bl : ℚ)
    (rOv bOv : Option ℚ) (r : Rand)
    (hk : st.key = effKey size ro bl rOv bOv) (hm : st.offMask ≠ none) :
    generate st size ro bl rOv bOv r = (st, r) := by
  have h1 : size = st.lastSize ∧ effRough ro rOv = st.lastRoughness ∧
      effBlur bl bOv = st.lastBlurWidth := by
    simp only [StampState.key, effKey, Prod.ext_iff] at hk
    exact ⟨hk.1.symm, hk.2.1.symm, hk.2.2.symm⟩
  unfold generate
  simp [hm, h1]

/-- Claim C6: a terrain dab draws one random rotation and passes it to both
the land-mask stamp and the visible-terrain stamp; both stamps use the same
cached mask, generated under the shared effective key
`(brushSize, roughness, 95)` (the hard-edge falloff override); consequently
the two draws differ only in tint and opacity and their silhouettes are
identical. -/
theorem terrain_rotation_coupling
    (raster : StampDraw → CompOp → Layer → Layer)
    (e : Engine) (st : StampState) (x y : ℝ) (s : AppState) (r : Rand)
    (hinit : e.mapCtx.isSome) (hmode : s.paintMode = PaintMode.terrain) :
    ∃ d₁ d₂,
      (applyPaint raster e st x y s r).trace
        = [⟨TargetId.landMask, CompOp.sourceOver, d₁⟩,
           ⟨TargetId.map, CompOp.sourceOver, d₂⟩]
      ∧ d₁.rot = ((r 0 : ℚ) : ℝ) * (2 * Real.pi)
      ∧ d₂.rot = d₁.rot
      ∧ d₁.x = x ∧ d₂.x = x ∧ d₁.y = y ∧ d₂.y = y
      ∧ d₁.size = s.brushSize ∧ d₂.size = s.brushSize
      ∧ d₁.mask = d₂.mask
      ∧ some d₁.mask = (applyPaint raster e st x y s r).stamp.offMask
      ∧ (applyPaint raster e st x y s r).stamp.key
          = (s.brushSize, s.roughness, 95)
      ∧ (applyPaint raster e st x y s r).engine.maskLayer
          = raster d₁ CompOp.sourceOver e.maskLayer
      ∧ (applyPaint raster e st x y s r).engine.mapCtx
          = some (raster d₂ CompOp.sourceOver (getLayer e.mapCtx))
      ∧ silhouette d₁ = silhouette d₂ := by
  obtain ⟨M, hM⟩ := Option.isSome_iff_exists.mp hinit
  have hkey := generate_key st s.brushSize s.roughness s.blurWidth none
    (some 95) (Rand.shift r 1)
  have hsome := generate_offMask_isSome st s.brushSize s.roughness
    s.blurWidth none (some 95) (Rand.shift r 1)
  have hhit := generate_cache_hit
    (generate st s.brushSize s.roughness s.blurWidth none (some 95)
      (Rand.shift r 1)).1
    s.brushSize s.roughness s.blurWidth none (some 95)
    (generate st s.brushSize s.roughness s.blurWidth none (some 95)
      (Rand.shift r 1)).2
    hkey (Option.ne_none_iff_isSome.mpr hsome)
  refine ⟨⟨x, y, s.brushSize, "black", 1,
      ((r 0 : ℚ) : ℝ) * (2 * Real.pi),
      ((generate st s.brushSize s.roughness s.blurWidth none (some 95)
        (Rand.shift r 1)).1).offMask.getD MaskDesc.blank⟩,
    ⟨x, y, s.brushSize, s.terrainColor, s.brushBlur / 100,
      ((r 0 : ℚ) : ℝ) * (2 * Real.pi),
      ((generate st s.brushSize s.roughness s.blurWidth none (some 95)
        (Rand.shift r 1)).1).offMask.getD MaskDesc.blank⟩,
    ?_, rfl, rfl, rfl, rfl, rfl, rfl, rfl, rfl, rfl, ?_, ?_, ?_, ?_, rfl⟩
  · simp only [applyPaint, hM, hmode, Option.isNone_some,
      Bool.false_eq_true, if_false, reduceIte, drawToMask, drawStamp, hhit,
      setLast]
  · obtain ⟨mk, hmk⟩ := Option.isSome_iff_exists.mp hsome
    simp only [applyPaint, hM, hmode, Option.isNone_some,
      Bool.false_eq_true, if_false, reduceIte, drawToMask, drawStamp, hhit,
      setLast, hmk, Option.getD_some]
  · simp only [applyPaint, hM, hmode, Option.isNone_some,
      Bool.false_eq_true, if_false, reduceIte, drawToMask, drawStamp, hhit,
      setLast]
    rw [hkey]
    simp [effKey, effRough, effBlur]
  · simp only [applyPaint, hM, hmode, Option.isNone_some,
      Bool.false_eq_true, if_false, reduceIte, drawToMask, drawStamp, hhit,
      setLast, renderTextureLayer_maskLayer]
  · simp only [applyPaint, hM, hmode, Option.isNone_some,
      Bool.false_eq_true, if_false, reduceIte, drawToMask, drawStamp, hhit,
      setLast, renderTextureLayer_mapCtx, hM]

end RpgMap

namespace RpgMap

/-- Witness for C6 on a concrete terrain dab. -/
theorem terrain_rotation_coupling_witness :
    testEngine.mapCtx.isSome
    ∧ testStateTerrain.paintMode = PaintMode.terrain
    ∧ ∃ d₁ d₂,
      (applyPaint idRaster testEngine StochasticStamp.initialState 2 3
          testStateTerrain zeroRand).trace
        = [⟨TargetId.landMask, CompOp.sourceOver, d₁⟩,
           ⟨TargetId.map, CompOp.sourceOver, d₂⟩]
      ∧ d₂.rot = d₁.rot
      ∧ d₁.mask = d₂.mask
      ∧ silhouette d₁ = silhouette d₂ := by
  obtain ⟨d₁, d₂, h1, h2, h3, h4, h5, h6, h7, h8, h9, h10, h11, h12, h13,
    h14, h15⟩ := terrain_rotation_coupling idRaster testEngine
      StochasticStamp.initialState 2 3 testStateTerrain zeroRand rfl rfl
  exact ⟨rfl, rfl, d₁, d₂, h1, h3, h10, h15⟩

end RpgMap

namespace RpgMap

/-- Compositing a source over a cleared (transparent) destination yields the
source. -/
theorem RGBA.over_zero (s : RGBA) : RGBA.over s RGBA.zero = s := by
  cases s
  simp [RGBA.over, RGBA.zero]

/-- Pixels of the processed rectangle lie inside the canvas. -/
theorem processedRect_mem_inCanvas (w h : ℕ) (d : Option (ℝ × ℝ × ℝ))
    (rx ry rw rh : ℤ) (hpr : processedRect w h d = some (rx, ry, rw, rh))
    (i j : ℤ) (hmem : inRect rx ry rw rh i j) : inCanvas w h i j := by
  obtain ⟨m1, m2, m3, m4⟩ := hmem
  cases d with
  | none =>
    simp only [processedRect, Option.some.injEq, Prod.mk.injEq] at hpr
    obtain ⟨h1, h2, h3, h4⟩ := hpr
    exact ⟨by omega, by omega, by omega, by omega⟩
  | some p =>
    obtain ⟨dx, dy, dr⟩ := p
    simp only [processedRect] at hpr
    by_cases hc : (min (w : ℤ) (⌊dx - dr⌋ + ⌈dr * 2⌉) ≤ max 0 ⌊dx - dr⌋
        ∨ min (h : ℤ) (⌊dy - dr⌋ + ⌈dr * 2⌉) ≤ max 0 ⌊dy - dr⌋)
    · rw [if_pos hc] at hpr
      exact absurd hpr (by simp)
    · rw [if_neg hc] at hpr
      simp only [Option.some.injEq, Prod.mk.injEq] at hpr
      obtain ⟨h1, h2, h3, h4⟩ := hpr
      have e1 : (0 : ℤ) ≤ max 0 ⌊dx - dr⌋ := le_max_left 0 _
      have e2 : (0 : ℤ) ≤ max 0 ⌊dy - dr⌋ := le_max_left 0 _
      have e3 : min (w : ℤ) (⌊dx - dr⌋ + ⌈dr * 2⌉) ≤ (w : ℤ) :=
        min_le_left _ _
      have e4 : min (h : ℤ) (⌊dy - dr⌋ + ⌈dr * 2⌉) ≤ (h : ℤ) :=
        min_le_left _ _
      refine ⟨by linarith, by linarith, by linarith, by linarith⟩

/-- Inside the canvas, membership in the processed rectangle of a dirty
square agrees with membership in the unclamped dirty box the no-pattern
branch clears. -/
theorem inProcessed_dirty_iff (w h : ℕ) (dx dy dr : ℝ) (i j : ℤ)
    (hic : inCanvas w h i j) :
    inProcessed (processedRect w h (some (dx, dy, dr))) i j
      ↔ inRect ⌊dx - dr⌋ ⌊dy - dr⌋ ⌈dr * 2⌉ ⌈dr * 2⌉ i j := by
  obtain ⟨hi0, hiw, hj0, hjh⟩ := hic
  simp only [inProcessed, processedRect]
  by_cases hc : (min (w : ℤ) (⌊dx - dr⌋ + ⌈dr * 2⌉) ≤ max 0 ⌊dx - dr⌋
      ∨ min (h : ℤ) (⌊dy - dr⌋ + ⌈dr * 2⌉) ≤ max 0 ⌊dy - dr⌋)
  · rw [if_pos hc]
    simp only [false_iff]
    intro hr
    obtain ⟨m1, m2, m3, m4⟩ := hr
    have hx1 : max 0 ⌊dx - dr⌋ ≤ i := max_le hi0 m1
    have hx2 : i < min (w : ℤ) (⌊dx - dr⌋ + ⌈dr * 2⌉) := lt_min hiw m2
    have hy1 : max 0 ⌊dy - dr⌋ ≤ j := max_le hj0 m3
    have hy2 : j < min (h : ℤ) (⌊dy - dr⌋ + ⌈dr * 2⌉) := lt_min hjh m4
    rcases hc with hc | hc <;> linarith
  · rw [if_neg hc]
    unfold inRect
    constructor
    · intro hr
      obtain ⟨m1, m2, m3, m4⟩ := hr
      have e1 : ⌊dx - dr⌋ ≤ max 0 ⌊dx - dr⌋ := le_max_right 0 _
      have e2 : ⌊dy - dr⌋ ≤ max 0 ⌊dy - dr⌋ := le_max_right 0 _
      have e3 : min (w : ℤ) (⌊dx - dr⌋ + ⌈dr * 2⌉) ≤ ⌊dx - dr⌋ + ⌈dr * 2⌉ :=
        min_le_right _ _
      have e4 : min (h : ℤ) (⌊dy - dr⌋ + ⌈dr * 2⌉) ≤ ⌊dy - dr⌋ + ⌈dr * 2⌉ :=
        min_le_right _ _
      refine ⟨by linarith, by linarith, by linarith, by linarith⟩
    · intro hr
      obtain ⟨m1, m2, m3, m4⟩ := hr
      have hx1 : max 0 ⌊dx - dr⌋ ≤ i := max_le hi0 m1
      have hx2 : i < min (w : ℤ) (⌊dx - dr⌋ + ⌈dr * 2⌉) := lt_min hiw m2
      have hy1 : max 0 ⌊dy - dr⌋ ≤ j := max_le hj0 m3
      have hy2 : j < min (h : ℤ) (⌊dy - dr⌋ + ⌈dr * 2⌉) := lt_min hjh m4
      refine ⟨by linarith, by linarith, by linarith, by linarith⟩

end RpgMap

namespace RpgMap

/-- Claim C4: with an active pattern image, `renderTextureLayer` leaves every
pixel inside the processed rectangle equal to the origin-anchored repeating
pattern, alpha-masked first by the texture mask and then by the land mask;
without an active pattern image it instead clears the processed rectangle
(the whole layer when no dirty region is given). -/
theorem texture_layer_recompute (e : Engine) (dirty : Option (ℝ × ℝ × ℝ))
    (L : Layer) (hctx : e.textureLayerCtx = some L) :
    (∀ img, e.currentTextureImg = some img →
      ∀ rx ry rw rh,
        processedRect e.width e.height dirty = some (rx, ry, rw, rh) →
      ∀ i j, inRect rx ry rw rh i j →
        getLayer (renderTextureLayer e dirty).textureLayerCtx i j
          = RGBA.smul ((e.maskLayer i j).a)
              (RGBA.smul ((e.textureMaskLayer i j).a) (patternAt img i j)))
    ∧ (e.currentTextureImg = none →
      ∀ i j, inCanvas e.width e.height i j →
        (inProcessed (processedRect e.width e.height dirty) i j →
          getLayer (renderTextureLayer e dirty).textureLayerCtx i j
            = RGBA.zero)
        ∧ (¬ inProcessed (processedRect e.width e.height dirty) i j →
          getLayer (renderTextureLayer e dirty).textureLayerCtx i j
            = getLayer e.textureLayerCtx i j)) := by
  constructor
  · intro img himg rx ry rw rh hpr i j hmem
    have hic : inCanvas e.width e.height i j :=
      processedRect_mem_inCanvas e.width e.height dirty rx ry rw rh hpr i j
        hmem
    simp only [renderTextureLayer, hctx, himg, hpr, getLayer,
      Option.getD_some, drawSliceDestIn, fillRectPattern, clearRect, hic,
      hmem, and_self, if_true, reduceIte, RGBA.over_zero, RGBA.destIn]
  · intro hnone i j hic
    cases dirty with
    | none =>
      have hmem : inRect 0 0 (e.width : ℤ) (e.height : ℤ) i j := by
        obtain ⟨a, b, c, d⟩ := hic
        exact ⟨a, by omega, c, by omega⟩
      constructor
      · intro hp
        simp only [renderTextureLayer, hctx, hnone, getLayer,
          Option.getD_some, clearRect, hic, hmem, and_self, if_true,
          reduceIte]
      · intro hnp
        exact absurd hmem hnp
    | some p =>
      obtain ⟨dx, dy, dr⟩ := p
      have hiff := inProcessed_dirty_iff e.width e.height dx dy dr i j hic
      constructor
      · intro hp
        have hbox := hiff.mp hp
        simp only [renderTextureLayer, hctx, hnone, getLayer,
          Option.getD_some, clearRect, hic, hbox, and_self, if_true,
          reduceIte]
      · intro hnp
        have hbox : ¬ inRect ⌊dx - dr⌋ ⌊dy - dr⌋ ⌈dr * 2⌉ ⌈dr * 2⌉ i j :=
          fun hb => hnp (hiff.mpr hb)
        simp only [renderTextureLayer, hctx, hnone, getLayer,
          Option.getD_some, clearRect, hbox, and_false, if_false, reduceIte]

end RpgMap

namespace RpgMap

/-- Witness for C4 on the concrete patterned engine, full-canvas recompute,
pixel (1,2). -/
theorem texture_layer_recompute_witness :
    testEngineTex.textureLayerCtx = some Layer.empty
    ∧ testEngineTex.currentTextureImg = some testImg
    ∧ inRect 0 0 (testEngineTex.width : ℤ) (testEngineTex.height : ℤ) 1 2
    ∧ getLayer (renderTextureLayer testEngineTex none).textureLayerCtx 1 2
        = RGBA.smul ((testEngineTex.maskLayer 1 2).a)
            (RGBA.smul ((testEngineTex.textureMaskLayer 1 2).a)
              (patternAt testImg 1 2)) := by
  refine ⟨rfl, rfl, by decide, ?_⟩
  exact (texture_layer_recompute testEngineTex none Layer.empty rfl).1
    testImg rfl 0 0 (testEngineTex.width : ℤ) (testEngineTex.height : ℤ)
    rfl 1 2 (by decide)

/-- Claim C5: a dirty square covering the whole canvas makes
`renderTextureLayer` produce exactly the state of the no-dirty-region
full recompute, whatever the pattern image and the two masks hold. -/
theorem dirty_rect_covering_is_full (e : Engine) (dx dy dr : ℝ)
    (hw : 0 < e.width) (hh : 0 < e.height)
    (h1 : ⌊dx - dr⌋ ≤ 0) (h2 : ⌊dy - dr⌋ ≤ 0)
    (h3 : (e.width : ℤ) ≤ ⌊dx - dr⌋ + ⌈dr * 2⌉)
    (h4 : (e.height : ℤ) ≤ ⌊dy - dr⌋ + ⌈dr * 2⌉) :
    renderTextureLayer e (some (dx, dy, dr)) = renderTextureLayer e none := by
  have ha : max 0 ⌊dx - dr⌋ = 0 := max_eq_left h1
  have hb : max 0 ⌊dy - dr⌋ = 0 := max_eq_left h2
  have hcx : min (e.width : ℤ) (⌊dx - dr⌋ + ⌈dr * 2⌉) = (e.width : ℤ) :=
    min_eq_left h3
  have hcy : min (e.height : ℤ) (⌊dy - dr⌋ + ⌈dr * 2⌉) = (e.height : ℤ) :=
    min_eq_left h4
  have hpr : processedRect e.width e.height (some (dx, dy, dr))
      = some (0, 0, (e.width : ℤ), (e.height : ℤ)) := by
    simp only [processedRect]
    rw [if_neg]
    · rw [ha, hb, hcx, hcy]
      simp
    · rw [ha, hb, hcx, hcy]
      push_neg
      constructor <;> omega
  have hpr0 : processedRect e.width e.height none
      = some (0, 0, (e.width : ℤ), (e.height : ℤ)) := rfl
  cases hL : e.textureLayerCtx with
  | none => simp only [renderTextureLayer, hL]
  | some L =>
    cases hI : e.currentTextureImg with
    | some img => simp only [renderTextureLayer, hL, hI, hpr, hpr0]
    | none =>
      have heq : clearRect e.width e.height L ⌊dx - dr⌋ ⌊dy - dr⌋
          ⌈dr * 2⌉ ⌈dr * 2⌉
          = clearRect e.width e.height L 0 0 (e.width : ℤ)
              (e.height : ℤ) := by
        funext i j
        unfold clearRect
        by_cases hic : inCanvas e.width e.height i j
        · have hiff : inRect ⌊dx - dr⌋ ⌊dy - dr⌋ ⌈dr * 2⌉ ⌈dr * 2⌉ i j
              ↔ inRect 0 0 (e.width : ℤ) (e.height : ℤ) i j := by
            obtain ⟨a, b, c, d⟩ := hic
            unfold inRect
            constructor
            · intro _
              exact ⟨a, by omega, c, by omega⟩
            · intro _
              exact ⟨by omega, by omega, by omega, by omega⟩
          rw [if_congr (and_congr Iff.rfl hiff) rfl rfl]
        · rw [if_neg (fun hx => hic hx.1), if_neg (fun hx => hic hx.1)]
      simp only [renderTextureLayer, hL, hI]
      rw [heq]

/-- Witness for C5: on the concrete patterned 4×4 engine the dirty square
centered at (2,2) with radius 3 covers the canvas and reproduces the full
recompute exactly. -/
theorem dirty_rect_covering_is_full_witness :
    (0 < testEngineTex.width ∧ 0 < testEngineTex.height
      ∧ ⌊(2 : ℝ) - 3⌋ ≤ 0
      ∧ (testEngineTex.width : ℤ) ≤ ⌊(2 : ℝ) - 3⌋ + ⌈(3 : ℝ) * 2⌉)
    ∧ renderTextureLayer testEngineTex (some (2, 2, 3))
        = renderTextureLayer testEngineTex none := by
  have hfl : ⌊(2 : ℝ) - 3⌋ = (-1 : ℤ) := by
    norm_num
  have hcl : ⌈(3 : ℝ) * 2⌉ = (6 : ℤ) := by
    norm_num
  refine ⟨⟨by norm_num [testEngineTex, testEngine], by norm_num [testEngineTex, testEngine],
    by rw [hfl]; norm_num, by rw [hfl, hcl]; norm_num [testEngineTex, testEngine]⟩, ?_⟩
  exact dirty_rect_covering_is_full testEngineTex 2 2 3
    (by norm_num [testEngineTex, testEngine])
    (by norm_num [testEngineTex, testEngine])
    (by rw [hfl]; norm_num) (by rw [hfl]; norm_num)
    (by rw [hfl, hcl]; norm_num [testEngineTex, testEngine])
    (by rw [hfl, hcl]; norm_num [testEngineTex, testEngine])

end RpgMap

namespace RpgMap

/-- One step of the mark count: while the loop can still place a mark at
`c ≤ L`, advancing by the spacing drops the count by one. -/
theorem markCount_step (S L c : ℝ) (hS : 0 < S) (h : c ≤ L) :
    markCount c S L = markCount (c + S) S L + 1 := by
  unfold markCount
  rw [if_pos h]
  by_cases h2 : c + S ≤ L
  · rw [if_pos h2]
    have hdiv : (L - (c + S)) / S = (L - c) / S - 1 := by
      field_simp
      ring
    rw [hdiv, Int.floor_sub_one]
    have hge : 1 ≤ ⌊(L - c) / S⌋ := by
      apply Int.le_floor.mpr
      push_cast
      rw [le_div_iff hS]
      linarith
    omega
  · rw [if_neg h2]
    have h3 : (L - c) / S < 1 := by
      rw [div_lt_one hS]
      linarith
    have h4 : 0 ≤ (L - c) / S := div_nonneg (by linarith) hS.le
    have h5 : ⌊(L - c) / S⌋ = 0 := Int.floor_eq_zero_iff.mpr ⟨h4, h3⟩
    omega

/-- The loop places its `k`-th mark exactly when `c + k·S` still lies in the
segment. -/
theorem lt_markCount_iff (c S L : ℝ) (hS : 0 < S) (k : ℕ) :
    k < markCount c S L ↔ c + k * S ≤ L := by
  unfold markCount
  by_cases h : c ≤ L
  · rw [if_pos h]
    have h0 : 0 ≤ ⌊(L - c) / S⌋ :=
      Int.floor_nonneg.mpr (div_nonneg (by linarith) hS.le)
    constructor
    · intro hk
      have h1 : (k : ℤ) ≤ ⌊(L - c) / S⌋ := by omega
      have h2 : (k : ℝ) ≤ (L - c) / S := by
        exact_mod_cast Int.le_floor.mp h1
      rw [le_div_iff hS] at h2
      linarith
    · intro hk
      have h2 : (k : ℝ) ≤ (L - c) / S := by
        rw [le_div_iff hS]
        linarith
      have h1 : (k : ℤ) ≤ ⌊(L - c) / S⌋ := Int.le_floor.mpr (by
        exact_mod_cast h2)
      omega
  · rw [if_neg h]
    simp only [Nat.not_lt_zero, false_iff]
    intro hk
    apply h
    have hkS : (0 : ℝ) ≤ (k : ℝ) * S := mul_nonneg (Nat.cast_nonneg k) hS.le
    linarith

/-- Closed form of the `drawPathSegment` while-loop: the marks are
`c, c+S, …` while they fit in `L`, and the stored value is one spacing past
the last mark. -/
theorem pathLoop_eq (S : ℝ) (hS : 1 ≤ S) (L : ℝ) (c : ℝ) :
    pathLoop S hS L c
      = ((List.range (markCount c S L)).map fun k : ℕ => c + (k : ℝ) * S,
         c + markCount c S L * S - L) := by
  have hS0 : (0 : ℝ) < S := lt_of_lt_of_le one_pos hS
  generalize hn : markCount c S L = n
  induction n generalizing c with
  | zero =>
    have hc : ¬ c ≤ L := by
      by_contra hcc
      unfold markCount at hn
      rw [if_pos hcc] at hn
      omega
    unfold pathLoop
    rw [dif_neg hc]
    simp
  | succ n ih =>
    have hc : c ≤ L := by
      by_contra hcc
      unfold markCount at hn
      rw [if_neg hcc] at hn
      omega
    have hstep : markCount (c + S) S L = n := by
      have := markCount_step S L c hS0 hc
      omega
    unfold pathLoop
    rw [dif_pos hc]
    rw [ih (c + S) hstep, Prod.mk.injEq]
    refine ⟨?_, by push_cast; ring⟩
    rw [List.range_succ_eq_map, List.map_cons, List.map_map]
    congr 1
    · norm_num
    · apply List.map_congr_left
      intro k _
      simp only [Function.comp_apply]
      push_cast
      ring

end RpgMap

namespace RpgMap

/-- Closed form of one non-degenerate `drawPathSegment` call: the marks sit
at `pathRemainder + k·spacing` along the unit direction, and the new
remainder is `currentDist - dist` for the first `currentDist` past the
segment end. -/
theorem drawPathSegment_spec (mr : PathMark → Layer → Layer) (e : Engine)
    (x1 y1 x2 y2 : ℝ) (s : AppState) (P : Layer) (hP : e.pathCtx = some P)
    (hd : ¬ Real.sqrt ((x2 - x1) ^ 2 + (y2 - y1) ^ 2) < 0.5) :
    ∃ P' : Layer,
      drawPathSegment mr e x1 y1 x2 y2 s
        = ({ e with
              pathCtx := some P'
              pathRemainder :=
                e.pathRemainder
                  + markCount e.pathRemainder
                      ((max 1 (s.brushSize * s.pathSpacing) : ℚ) : ℝ)
                      (Real.sqrt ((x2 - x1) ^ 2 + (y2 - y1) ^ 2))
                    * ((max 1 (s.brushSize * s.pathSpacing) : ℚ) : ℝ)
                  - Real.sqrt ((x2 - x1) ^ 2 + (y2 - y1) ^ 2) },
           (List.range (markCount e.pathRemainder
               ((max 1 (s.brushSize * s.pathSpacing) : ℚ) : ℝ)
               (Real.sqrt ((x2 - x1) ^ 2 + (y2 - y1) ^ 2)))).map
             fun k : ℕ =>
               (x1 + (x2 - x1) / Real.sqrt ((x2 - x1) ^ 2 + (y2 - y1) ^ 2)
                  * (e.pathRemainder + (k : ℝ)
                      * ((max 1 (s.brushSize * s.pathSpacing) : ℚ) : ℝ)),
                y1 + (y2 - y1) / Real.sqrt ((x2 - x1) ^ 2 + (y2 - y1) ^ 2)
                  * (e.pathRemainder + (k : ℝ)
                      * ((max 1 (s.brushSize * s.pathSpacing) : ℚ) : ℝ)))) := by
  simp only [drawPathSegment, hP]
  rw [if_neg hd, pathLoop_eq]
  dsimp only
  simp only [List.map_map, Function.comp]
  exact ⟨_, rfl⟩

/-- Bounds for the remainder the loop stores: it is strictly positive and at
most one spacing. -/
theorem remainder_bounds (r S L : ℝ) (hS : 0 < S) (hrS : r ≤ S)
    (hL : 0 < L) :
    0 < r + markCount r S L * S - L ∧ r + markCount r S L * S - L ≤ S := by
  by_cases hrL : r ≤ L
  · have hfl : markCount r S L = (⌊(L - r) / S⌋).toNat + 1 := by
      unfold markCount
      rw [if_pos hrL]
    have hnn : 0 ≤ ⌊(L - r) / S⌋ :=
      Int.floor_nonneg.mpr (div_nonneg (by linarith) hS.le)
    have hcast : ((markCount r S L : ℕ) : ℝ) = (⌊(L - r) / S⌋ : ℝ) + 1 := by
      rw [hfl, Nat.cast_add, Nat.cast_one]
      congr 1
      exact_mod_cast Int.toNat_of_nonneg hnn
    have hup : (L - r) / S < ⌊(L - r) / S⌋ + 1 := Int.lt_floor_add_one _
    have hdn : (⌊(L - r) / S⌋ : ℝ) ≤ (L - r) / S := Int.floor_le _
    have hup' : L - r < ((⌊(L - r) / S⌋ : ℝ) + 1) * S := by
      have := (div_lt_iff hS).mp hup
      linarith
    have hdn' : (⌊(L - r) / S⌋ : ℝ) * S ≤ L - r := by
      rw [← le_div_iff hS]
      exact hdn
    constructor
    · rw [hcast]
      linarith
    · rw [hcast]
      linarith
  · push_neg at hrL
    have hfl : markCount r S L = 0 := by
      unfold markCount
      rw [if_neg (not_le.mpr hrL)]
    rw [hfl]
    push_cast
    constructor
    · linarith
    · linarith

end RpgMap

namespace RpgMap

/-- Claim C10: `drawPathSegment` keeps `pathRemainder` inside
`(0, max(1, brushSize·pathSpacing)]`: starting from a remainder in `[0, S]`,
a segment of length at least 0.5 leaves a strictly positive remainder of at
most `S`, and a shorter (degenerate, skipped) segment leaves the engine —
remainder included — exactly unchanged. -/
theorem path_remainder_invariant (mr : PathMark → Layer → Layer)
    (e : Engine) (x1 y1 x2 y2 : ℝ) (s : AppState) (P : Layer)
    (hP : e.pathCtx = some P) (h0 : 0 ≤ e.pathRemainder)
    (h1 : e.pathRemainder ≤ ((max 1 (s.brushSize * s.pathSpacing) : ℚ) : ℝ)) :
    ((1 : ℝ) / 2 ≤ Real.sqrt ((x2 - x1) ^ 2 + (y2 - y1) ^ 2) →
      0 < (drawPathSegment mr e x1 y1 x2 y2 s).1.pathRemainder
      ∧ (drawPathSegment mr e x1 y1 x2 y2 s).1.pathRemainder
          ≤ ((max 1 (s.brushSize * s.pathSpacing) : ℚ) : ℝ))
    ∧ (Real.sqrt ((x2 - x1) ^ 2 + (y2 - y1) ^ 2) < (1 : ℝ) / 2 →
      drawPathSegment mr e x1 y1 x2 y2 s = (e, [])) := by
  constructor
  · intro hge
    have hd : ¬ Real.sqrt ((x2 - x1) ^ 2 + (y2 - y1) ^ 2) < 0.5 := by
      rw [not_lt]
      calc (0.5 : ℝ) = 1 / 2 := by norm_num
      _ ≤ _ := hge
    obtain ⟨P', hspec⟩ := drawPathSegment_spec mr e x1 y1 x2 y2 s P hP hd
    rw [hspec]
    have hS0 : (0 : ℝ) < ((max 1 (s.brushSize * s.pathSpacing) : ℚ) : ℝ) := by
      have : (1 : ℝ) ≤ ((max 1 (s.brushSize * s.pathSpacing) : ℚ) : ℝ) := by
        exact_mod_cast le_max_left 1 (s.brushSize * s.pathSpacing)
      linarith
    have hL : (0 : ℝ) < Real.sqrt ((x2 - x1) ^ 2 + (y2 - y1) ^ 2) := by
      linarith
    exact remainder_bounds e.pathRemainder _ _ hS0 h1 hL
  · intro hlt
    have hd : Real.sqrt ((x2 - x1) ^ 2 + (y2 - y1) ^ 2) < 0.5 := by
      calc Real.sqrt ((x2 - x1) ^ 2 + (y2 - y1) ^ 2) < 1 / 2 := hlt
      _ = 0.5 := by norm_num
    simp only [drawPathSegment, hP]
    rw [if_pos hd]

/-- Witness for C10: a 9-pixel horizontal segment with spacing 25 on the
fresh engine leaves remainder 16 ∈ (0, 25]. -/
theorem path_remainder_invariant_witness :
    (testEngine.pathCtx = some Layer.empty
      ∧ 0 ≤ testEngine.pathRemainder
      ∧ testEngine.pathRemainder
          ≤ ((max 1 (testState.brushSize * testState.pathSpacing) : ℚ) : ℝ)
      ∧ (1 : ℝ) / 2 ≤ Real.sqrt (((9 : ℝ) - 0) ^ 2 + ((0 : ℝ) - 0) ^ 2))
    ∧ 0 < (drawPathSegment idMark testEngine 0 0 9 0 testState).1.pathRemainder
    ∧ (drawPathSegment idMark testEngine 0 0 9 0
        testState).1.pathRemainder
        ≤ ((max 1 (testState.brushSize * testState.pathSpacing) : ℚ) : ℝ) := by
  have hsq : Real.sqrt (((9 : ℝ) - 0) ^ 2 + ((0 : ℝ) - 0) ^ 2) = 9 := by
    rw [show ((9 : ℝ) - 0) ^ 2 + ((0 : ℝ) - 0) ^ 2 = 9 ^ 2 by norm_num]
    exact Real.sqrt_sq (by norm_num)
  have hge : (1 : ℝ) / 2 ≤ Real.sqrt (((9 : ℝ) - 0) ^ 2 + ((0 : ℝ) - 0) ^ 2) := by
    rw [hsq]
    norm_num
  have h1 : testEngine.pathRemainder
      ≤ ((max 1 (testState.brushSize * testState.pathSpacing) : ℚ) : ℝ) := by
    show (0 : ℝ) ≤ ((max 1 ((10 : ℚ) * (5 / 2)) : ℚ) : ℝ)
    norm_num
  have h := path_remainder_invariant idMark testEngine 0 0 9 0 testState
    Layer.empty rfl le_rfl h1
  exact ⟨⟨rfl, le_rfl, h1, hge⟩, (h.1 hge).1, (h.1 hge).2⟩

end RpgMap

namespace RpgMap

set_option maxHeartbeats 2000000 in
/-- Claim C3: a straight stroke split at an interior point into two
collinear sub-segments, each at least 0.5px long, produces through two
consecutive `drawPathSegment` calls exactly the mark positions and the final
`pathRemainder` of the single call over the whole stroke. -/
theorem path_segment_split (mr : PathMark → Layer → Layer) (e : Engine)
    (x0 y0 x1 y1 x2 y2 t : ℝ) (s : AppState) (P : Layer)
    (hP : e.pathCtx = some P)
    (hx1 : x1 - x0 = t * (x2 - x0)) (hy1 : y1 - y0 = t * (y2 - y0))
    (ht0 : 0 ≤ t) (ht1 : t ≤ 1)
    (hd1 : (1 : ℝ) / 2 ≤ Real.sqrt ((x1 - x0) ^ 2 + (y1 - y0) ^ 2))
    (hd2 : (1 : ℝ) / 2 ≤ Real.sqrt ((x2 - x1) ^ 2 + (y2 - y1) ^ 2))
    (hr0 : 0 ≤ e.pathRemainder)
    (hr1 : e.pathRemainder ≤ ((max 1 (s.brushSize * s.pathSpacing) : ℚ) : ℝ)) :
    (drawPathSegment mr e x0 y0 x1 y1 s).2
        ++ (drawPathSegment mr (drawPathSegment mr e x0 y0 x1 y1 s).1
              x1 y1 x2 y2 s).2
      = (drawPathSegment mr e x0 y0 x2 y2 s).2
    ∧ (drawPathSegment mr (drawPathSegment mr e x0 y0 x1 y1 s).1
          x1 y1 x2 y2 s).1.pathRemainder
      = (drawPathSegment mr e x0 y0 x2 y2 s).1.pathRemainder := by
  have hSP1 : (1 : ℝ) ≤ ((max 1 (s.brushSize * s.pathSpacing) : ℚ) : ℝ) := by
    exact_mod_cast le_max_left 1 (s.brushSize * s.pathSpacing)
  have hSP0 : (0 : ℝ) < ((max 1 (s.brushSize * s.pathSpacing) : ℚ) : ℝ) := lt_of_lt_of_le one_pos hSP1
  have hDC0 : (0 : ℝ) ≤ Real.sqrt ((x2 - x0) ^ 2 + (y2 - y0) ^ 2) := Real.sqrt_nonneg _
  have hdA : Real.sqrt ((x1 - x0) ^ 2 + (y1 - y0) ^ 2) = t * Real.sqrt ((x2 - x0) ^ 2 + (y2 - y0) ^ 2) := by
    rw [show (x1 - x0) ^ 2 + (y1 - y0) ^ 2
        = t ^ 2 * ((x2 - x0) ^ 2 + (y2 - y0) ^ 2) by rw [hx1, hy1]; ring]
    rw [Real.sqrt_mul (sq_nonneg t), Real.sqrt_sq_eq_abs, abs_of_nonneg ht0]
  have hx2 : x2 - x1 = (1 - t) * (x2 - x0) := by linear_combination -hx1
  have hy2 : y2 - y1 = (1 - t) * (y2 - y0) := by linear_combination -hy1
  have hdB : Real.sqrt ((x2 - x1) ^ 2 + (y2 - y1) ^ 2) = (1 - t) * Real.sqrt ((x2 - x0) ^ 2 + (y2 - y0) ^ 2) := by
    rw [show (x2 - x1) ^ 2 + (y2 - y1) ^ 2
        = (1 - t) ^ 2 * ((x2 - x0) ^ 2 + (y2 - y0) ^ 2) by
      rw [hx2, hy2]; ring]
    rw [Real.sqrt_mul (sq_nonneg (1 - t)), Real.sqrt_sq_eq_abs,
      abs_of_nonneg (by linarith)]
  have hd1' : (1 : ℝ) / 2 ≤ t * Real.sqrt ((x2 - x0) ^ 2 + (y2 - y0) ^ 2) := hdA ▸ hd1
  have hd2' : (1 : ℝ) / 2 ≤ (1 - t) * Real.sqrt ((x2 - x0) ^ 2 + (y2 - y0) ^ 2) := hdB ▸ hd2
  have hsum : Real.sqrt ((x1 - x0) ^ 2 + (y1 - y0) ^ 2) + Real.sqrt ((x2 - x1) ^ 2 + (y2 - y1) ^ 2) = Real.sqrt ((x2 - x0) ^ 2 + (y2 - y0) ^ 2) := by
    rw [hdA, hdB]; ring
  have hDC1 : (1 : ℝ) ≤ Real.sqrt ((x2 - x0) ^ 2 + (y2 - y0) ^ 2) := by
    have hr : t * Real.sqrt ((x2 - x0) ^ 2 + (y2 - y0) ^ 2) + (1 - t) * Real.sqrt ((x2 - x0) ^ 2 + (y2 - y0) ^ 2) = Real.sqrt ((x2 - x0) ^ 2 + (y2 - y0) ^ 2) := by ring
    linarith
  have ht0' : 0 < t := by
    by_contra hcon
    push_neg at hcon
    nlinarith
  have ht1' : t < 1 := by
    by_contra hcon
    push_neg at hcon
    nlinarith
  have hDCne : Real.sqrt ((x2 - x0) ^ 2 + (y2 - y0) ^ 2) ≠ 0 := by positivity
  have hAle : Real.sqrt ((x1 - x0) ^ 2 + (y1 - y0) ^ 2) ≤ Real.sqrt ((x2 - x0) ^ 2 + (y2 - y0) ^ 2) := by
    rw [hdA]
    nlinarith
  have hndA : ¬ Real.sqrt ((x1 - x0) ^ 2 + (y1 - y0) ^ 2) < 0.5 := by
    rw [not_lt]
    calc (0.5 : ℝ) = 1 / 2 := by norm_num
    _ ≤ _ := hd1
  have hndB : ¬ Real.sqrt ((x2 - x1) ^ 2 + (y2 - y1) ^ 2) < 0.5 := by
    rw [not_lt]
    calc (0.5 : ℝ) = 1 / 2 := by norm_num
    _ ≤ _ := hd2
  have hndC : ¬ Real.sqrt ((x2 - x0) ^ 2 + (y2 - y0) ^ 2) < 0.5 := by
    rw [not_lt]
    linarith
  obtain ⟨PA, hA⟩ := drawPathSegment_spec mr e x0 y0 x1 y1 s P hP hndA
  have hPA : (drawPathSegment mr e x0 y0 x1 y1 s).1.pathCtx = some PA := by
    rw [hA]
  have hrA : (drawPathSegment mr e x0 y0 x1 y1 s).1.pathRemainder
      = e.pathRemainder + (markCount e.pathRemainder ((max 1 (s.brushSize * s.pathSpacing) : ℚ) : ℝ) (Real.sqrt ((x1 - x0) ^ 2 + (y1 - y0) ^ 2))) * ((max 1 (s.brushSize * s.pathSpacing) : ℚ) : ℝ) - Real.sqrt ((x1 - x0) ^ 2 + (y1 - y0) ^ 2) := by
    rw [hA]
  obtain ⟨PB, hB⟩ := drawPathSegment_spec mr
    (drawPathSegment mr e x0 y0 x1 y1 s).1 x1 y1 x2 y2 s PA hPA hndB
  obtain ⟨PC, hC⟩ := drawPathSegment_spec mr e x0 y0 x2 y2 s P hP hndC
  have key : ∀ k : ℕ, (k < markCount e.pathRemainder ((max 1 (s.brushSize * s.pathSpacing) : ℚ) : ℝ) (Real.sqrt ((x1 - x0) ^ 2 + (y1 - y0) ^ 2)) + markCount (e.pathRemainder + (markCount e.pathRemainder ((max 1 (s.brushSize * s.pathSpacing) : ℚ) : ℝ) (Real.sqrt ((x1 - x0) ^ 2 + (y1 - y0) ^ 2))) * ((max 1 (s.brushSize * s.pathSpacing) : ℚ) : ℝ) - Real.sqrt ((x1 - x0) ^ 2 + (y1 - y0) ^ 2)) ((max 1 (s.brushSize * s.pathSpacing) : ℚ) : ℝ) (Real.sqrt ((x2 - x1) ^ 2 + (y2 - y1) ^ 2)))
      ↔ e.pathRemainder + (k : ℝ) * ((max 1 (s.brushSize * s.pathSpacing) : ℚ) : ℝ) ≤ Real.sqrt ((x2 - x0) ^ 2 + (y2 - y0) ^ 2) := by
    intro k
    constructor
    · intro hk
      by_cases hkm : k < markCount e.pathRemainder ((max 1 (s.brushSize * s.pathSpacing) : ℚ) : ℝ) (Real.sqrt ((x1 - x0) ^ 2 + (y1 - y0) ^ 2))
      · have h := (lt_markCount_iff e.pathRemainder ((max 1 (s.brushSize * s.pathSpacing) : ℚ) : ℝ) (Real.sqrt ((x1 - x0) ^ 2 + (y1 - y0) ^ 2)) hSP0 k).mp hkm
        linarith
      · push_neg at hkm
        have hk2 : k - (markCount e.pathRemainder ((max 1 (s.brushSize * s.pathSpacing) : ℚ) : ℝ) (Real.sqrt ((x1 - x0) ^ 2 + (y1 - y0) ^ 2))) < markCount (e.pathRemainder + (markCount e.pathRemainder ((max 1 (s.brushSize * s.pathSpacing) : ℚ) : ℝ) (Real.sqrt ((x1 - x0) ^ 2 + (y1 - y0) ^ 2))) * ((max 1 (s.brushSize * s.pathSpacing) : ℚ) : ℝ) - Real.sqrt ((x1 - x0) ^ 2 + (y1 - y0) ^ 2)) ((max 1 (s.brushSize * s.pathSpacing) : ℚ) : ℝ) (Real.sqrt ((x2 - x1) ^ 2 + (y2 - y1) ^ 2)) := by omega
        have h := (lt_markCount_iff (e.pathRemainder + (markCount e.pathRemainder ((max 1 (s.brushSize * s.pathSpacing) : ℚ) : ℝ) (Real.sqrt ((x1 - x0) ^ 2 + (y1 - y0) ^ 2))) * ((max 1 (s.brushSize * s.pathSpacing) : ℚ) : ℝ) - Real.sqrt ((x1 - x0) ^ 2 + (y1 - y0) ^ 2)) ((max 1 (s.brushSize * s.pathSpacing) : ℚ) : ℝ) (Real.sqrt ((x2 - x1) ^ 2 + (y2 - y1) ^ 2)) hSP0 _).mp hk2
        have hcast : ((k - (markCount e.pathRemainder ((max 1 (s.brushSize * s.pathSpacing) : ℚ) : ℝ) (Real.sqrt ((x1 - x0) ^ 2 + (y1 - y0) ^ 2))) : ℕ) : ℝ) = (k : ℝ) - ((markCount e.pathRemainder ((max 1 (s.brushSize * s.pathSpacing) : ℚ) : ℝ) (Real.sqrt ((x1 - x0) ^ 2 + (y1 - y0) ^ 2)) : ℕ) : ℝ) :=
          Nat.cast_sub hkm
        rw [hcast] at h
        linarith
    · intro hk
      by_cases hkd : e.pathRemainder + (k : ℝ) * ((max 1 (s.brushSize * s.pathSpacing) : ℚ) : ℝ) ≤ Real.sqrt ((x1 - x0) ^ 2 + (y1 - y0) ^ 2)
      · have h : k < markCount e.pathRemainder ((max 1 (s.brushSize * s.pathSpacing) : ℚ) : ℝ) (Real.sqrt ((x1 - x0) ^ 2 + (y1 - y0) ^ 2)) :=
          (lt_markCount_iff e.pathRemainder ((max 1 (s.brushSize * s.pathSpacing) : ℚ) : ℝ) (Real.sqrt ((x1 - x0) ^ 2 + (y1 - y0) ^ 2)) hSP0 k).mpr hkd
        omega
      · push_neg at hkd
        have hkm : (markCount e.pathRemainder ((max 1 (s.brushSize * s.pathSpacing) : ℚ) : ℝ) (Real.sqrt ((x1 - x0) ^ 2 + (y1 - y0) ^ 2))) ≤ k := by
          by_contra hkm2
          push_neg at hkm2
          exact absurd
            ((lt_markCount_iff e.pathRemainder ((max 1 (s.brushSize * s.pathSpacing) : ℚ) : ℝ) (Real.sqrt ((x1 - x0) ^ 2 + (y1 - y0) ^ 2)) hSP0 k).mp hkm2)
            (not_le.mpr hkd)
        have hcast : ((k - (markCount e.pathRemainder ((max 1 (s.brushSize * s.pathSpacing) : ℚ) : ℝ) (Real.sqrt ((x1 - x0) ^ 2 + (y1 - y0) ^ 2))) : ℕ) : ℝ) = (k : ℝ) - ((markCount e.pathRemainder ((max 1 (s.brushSize * s.pathSpacing) : ℚ) : ℝ) (Real.sqrt ((x1 - x0) ^ 2 + (y1 - y0) ^ 2)) : ℕ) : ℝ) :=
          Nat.cast_sub hkm
        have h2 : (e.pathRemainder + (markCount e.pathRemainder ((max 1 (s.brushSize * s.pathSpacing) : ℚ) : ℝ) (Real.sqrt ((x1 - x0) ^ 2 + (y1 - y0) ^ 2))) * ((max 1 (s.brushSize * s.pathSpacing) : ℚ) : ℝ) - Real.sqrt ((x1 - x0) ^ 2 + (y1 - y0) ^ 2)) + ((k - (markCount e.pathRemainder ((max 1 (s.brushSize * s.pathSpacing) : ℚ) : ℝ) (Real.sqrt ((x1 - x0) ^ 2 + (y1 - y0) ^ 2))) : ℕ) : ℝ) * ((max 1 (s.brushSize * s.pathSpacing) : ℚ) : ℝ) ≤ Real.sqrt ((x2 - x1) ^ 2 + (y2 - y1) ^ 2) := by
          rw [hcast]
          linarith
        have h3 := (lt_markCount_iff (e.pathRemainder + (markCount e.pathRemainder ((max 1 (s.brushSize * s.pathSpacing) : ℚ) : ℝ) (Real.sqrt ((x1 - x0) ^ 2 + (y1 - y0) ^ 2))) * ((max 1 (s.brushSize * s.pathSpacing) : ℚ) : ℝ) - Real.sqrt ((x1 - x0) ^ 2 + (y1 - y0) ^ 2)) ((max 1 (s.brushSize * s.pathSpacing) : ℚ) : ℝ) (Real.sqrt ((x2 - x1) ^ 2 + (y2 - y1) ^ 2)) hSP0 _).mpr h2
        omega
  have hmn : (markCount e.pathRemainder ((max 1 (s.brushSize * s.pathSpacing) : ℚ) : ℝ) (Real.sqrt ((x1 - x0) ^ 2 + (y1 - y0) ^ 2))) + (markCount (e.pathRemainder + (markCount e.pathRemainder ((max 1 (s.brushSize * s.pathSpacing) : ℚ) : ℝ) (Real.sqrt ((x1 - x0) ^ 2 + (y1 - y0) ^ 2))) * ((max 1 (s.brushSize * s.pathSpacing) : ℚ) : ℝ) - Real.sqrt ((x1 - x0) ^ 2 + (y1 - y0) ^ 2)) ((max 1 (s.brushSize * s.pathSpacing) : ℚ) : ℝ) (Real.sqrt ((x2 - x1) ^ 2 + (y2 - y1) ^ 2))) = markCount e.pathRemainder ((max 1 (s.brushSize * s.pathSpacing) : ℚ) : ℝ) (Real.sqrt ((x2 - x0) ^ 2 + (y2 - y0) ^ 2)) := by
    rcases Nat.lt_or_ge ((markCount e.pathRemainder ((max 1 (s.brushSize * s.pathSpacing) : ℚ) : ℝ) (Real.sqrt ((x1 - x0) ^ 2 + (y1 - y0) ^ 2))) + (markCount (e.pathRemainder + (markCount e.pathRemainder ((max 1 (s.brushSize * s.pathSpacing) : ℚ) : ℝ) (Real.sqrt ((x1 - x0) ^ 2 + (y1 - y0) ^ 2))) * ((max 1 (s.brushSize * s.pathSpacing) : ℚ) : ℝ) - Real.sqrt ((x1 - x0) ^ 2 + (y1 - y0) ^ 2)) ((max 1 (s.brushSize * s.pathSpacing) : ℚ) : ℝ) (Real.sqrt ((x2 - x1) ^ 2 + (y2 - y1) ^ 2)))) (markCount e.pathRemainder ((max 1 (s.brushSize * s.pathSpacing) : ℚ) : ℝ) (Real.sqrt ((x2 - x0) ^ 2 + (y2 - y0) ^ 2))) with hlt | hge
    · exact absurd
        ((key _).mpr
          ((lt_markCount_iff e.pathRemainder ((max 1 (s.brushSize * s.pathSpacing) : ℚ) : ℝ) (Real.sqrt ((x2 - x0) ^ 2 + (y2 - y0) ^ 2)) hSP0 _).mp hlt))
        (lt_irrefl _)
    · rcases Nat.eq_or_lt_of_le hge with he | hlt
      · exact he.symm
      · exact absurd
          ((lt_markCount_iff e.pathRemainder ((max 1 (s.brushSize * s.pathSpacing) : ℚ) : ℝ) (Real.sqrt ((x2 - x0) ^ 2 + (y2 - y0) ^ 2)) hSP0 _).mpr
            ((key _).mp hlt))
          (lt_irrefl _)
  have hux : (x1 - x0) / Real.sqrt ((x1 - x0) ^ 2 + (y1 - y0) ^ 2) = (x2 - x0) / Real.sqrt ((x2 - x0) ^ 2 + (y2 - y0) ^ 2) := by
    rw [hdA, hx1, mul_div_mul_left _ _ (ne_of_gt ht0')]
  have huy : (y1 - y0) / Real.sqrt ((x1 - x0) ^ 2 + (y1 - y0) ^ 2) = (y2 - y0) / Real.sqrt ((x2 - x0) ^ 2 + (y2 - y0) ^ 2) := by
    rw [hdA, hy1, mul_div_mul_left _ _ (ne_of_gt ht0')]
  have hux2 : (x2 - x1) / Real.sqrt ((x2 - x1) ^ 2 + (y2 - y1) ^ 2) = (x2 - x0) / Real.sqrt ((x2 - x0) ^ 2 + (y2 - y0) ^ 2) := by
    rw [hdB, hx2, mul_div_mul_left _ _ (by linarith : (1 : ℝ) - t ≠ 0)]
  have huy2 : (y2 - y1) / Real.sqrt ((x2 - x1) ^ 2 + (y2 - y1) ^ 2) = (y2 - y0) / Real.sqrt ((x2 - x0) ^ 2 + (y2 - y0) ^ 2) := by
    rw [hdB, hy2, mul_div_mul_left _ _ (by linarith : (1 : ℝ) - t ≠ 0)]
  have hx1' : x1 = x0 + t * (x2 - x0) := by linarith [hx1]
  have hy1' : y1 = y0 + t * (y2 - y0) := by linarith [hy1]
  constructor
  · rw [hB, hC]
    dsimp only
    rw [hrA, hA]
    dsimp only
    rw [← hmn, List.range_add, List.map_append, List.map_map]
    congr 1
    · apply List.map_congr_left
      intro k _
      rw [hux, huy]
    · apply List.map_congr_left
      intro k _
      simp only [Function.comp_apply]
      rw [hux2, huy2, hdA, hx1', hy1', Prod.mk.injEq]
      push_cast
      have hcx : (x2 - x0) / (Real.sqrt ((x2 - x0) ^ 2 + (y2 - y0) ^ 2)) * (Real.sqrt ((x2 - x0) ^ 2 + (y2 - y0) ^ 2)) = x2 - x0 :=
        div_mul_cancel₀ _ hDCne
      have hcy : (y2 - y0) / (Real.sqrt ((x2 - x0) ^ 2 + (y2 - y0) ^ 2)) * (Real.sqrt ((x2 - x0) ^ 2 + (y2 - y0) ^ 2)) = y2 - y0 :=
        div_mul_cancel₀ _ hDCne
      constructor
      · linear_combination (-t) * hcx
      · linear_combination (-t) * hcy
  · rw [hB, hC]
    dsimp only
    rw [hrA, ← hmn]
    push_cast
    linarith

end RpgMap

namespace RpgMap

/-- Witness for C3: the straight stroke (0,0)→(10,0) split at (4,0) with
spacing 25 places the same marks and remainder as the single call. -/
theorem path_segment_split_witness :
    (testEngine.pathCtx = some Layer.empty
      ∧ (4 : ℝ) - 0 = 2 / 5 * ((10 : ℝ) - 0)
      ∧ (1 : ℝ) / 2 ≤ Real.sqrt (((4 : ℝ) - 0) ^ 2 + ((0 : ℝ) - 0) ^ 2)
      ∧ (1 : ℝ) / 2 ≤ Real.sqrt (((10 : ℝ) - 4) ^ 2 + ((0 : ℝ) - 0) ^ 2))
    ∧ ((drawPathSegment idMark testEngine 0 0 4 0 testState).2
        ++ (drawPathSegment idMark
            (drawPathSegment idMark testEngine 0 0 4 0 testState).1
            4 0 10 0 testState).2
      = (drawPathSegment idMark testEngine 0 0 10 0 testState).2)
    ∧ (drawPathSegment idMark
        (drawPathSegment idMark testEngine 0 0 4 0 testState).1
        4 0 10 0 testState).1.pathRemainder
      = (drawPathSegment idMark testEngine 0 0 10 0 testState).1.pathRemainder := by
  have h4 : Real.sqrt (((4 : ℝ) - 0) ^ 2 + ((0 : ℝ) - 0) ^ 2) = 4 := by
    rw [show ((4 : ℝ) - 0) ^ 2 + ((0 : ℝ) - 0) ^ 2 = 4 ^ 2 by norm_num]
    exact Real.sqrt_sq (by norm_num)
  have h6 : Real.sqrt (((10 : ℝ) - 4) ^ 2 + ((0 : ℝ) - 0) ^ 2) = 6 := by
    rw [show ((10 : ℝ) - 4) ^ 2 + ((0 : ℝ) - 0) ^ 2 = 6 ^ 2 by norm_num]
    exact Real.sqrt_sq (by norm_num)
  have hr1 : testEngine.pathRemainder
      ≤ ((max 1 (testState.brushSize * testState.pathSpacing) : ℚ) : ℝ) := by
    show (0 : ℝ) ≤ ((max 1 ((10 : ℚ) * (5 / 2)) : ℚ) : ℝ)
    norm_num
  have h := path_segment_split idMark testEngine 0 0 4 0 10 0 (2 / 5)
    testState Layer.empty rfl (by norm_num) (by norm_num) (by norm_num)
    (by norm_num) (by rw [h4]; norm_num) (by rw [h6]; norm_num) le_rfl hr1
  exact ⟨⟨rfl, by norm_num, by rw [h4]; norm_num, by rw [h6]; norm_num⟩,
    h.1, h.2⟩

end RpgMap

namespace RpgMap

/-- Restoring one encoded layer puts the captured pixels back, inside the
canvas. -/
theorem loadLayer_roundtrip {Blob : Type} (toDataURL : ℕ → ℕ → Layer → Blob)
    (decodeImg : Blob → Img) (w h : ℕ)
    (lossless : ∀ L : Layer,
      (decodeImg (toDataURL w h L)).w = w
      ∧ (decodeImg (toDataURL w h L)).h = h
      ∧ ∀ i j : ℤ, inCanvas w h i j →
          (decodeImg (toDataURL w h L)).pix i j = L i j)
    (L₀ Lold : Layer) (i j : ℤ) (hic : inCanvas w h i j) :
    loadLayer decodeImg w h w h (toDataURL w h L₀) Lold i j = L₀ i j := by
  obtain ⟨hw, hh, hpix⟩ := lossless L₀
  have hmem : inRect 0 0 (w : ℤ) (h : ℤ) i j := by
    obtain ⟨a, b, c, d⟩ := hic
    exact ⟨a, by omega, c, by omega⟩
  simp only [loadLayer, drawImgAt, clearRect, hw, hh, hic, hmem, and_self,
    if_true, reduceIte]
  rw [hpix i j hic, RGBA.over_zero]

/-- Claim C9: on an initialized engine, decoding the snapshot produced by
`getSnapshot` back through `loadSnapshot` (with the capture dimensions, all
four blobs decoded, and a lossless per-layer encode/decode) leaves the land
mask, the texture mask, the visible map layer and the path layer
pixel-equivalent to their contents at capture time. -/
theorem snapshot_round_trip {Blob : Type}
    (toDataURL : ℕ → ℕ → Layer → Blob) (decodeImg : Blob → Img)
    (e : Engine) (M P : Layer)
    (hM : e.mapCtx = some M) (hP : e.pathCtx = some P)
    (lossless : ∀ L : Layer,
      (decodeImg (toDataURL e.width e.height L)).w = e.width
      ∧ (decodeImg (toDataURL e.width e.height L)).h = e.height
      ∧ ∀ i j : ℤ, inCanvas e.width e.height i j →
          (decodeImg (toDataURL e.width e.height L)).pix i j = L i j) :
    ∀ snap, getSnapshot toDataURL e = some snap →
    ∀ i j : ℤ, inCanvas e.width e.height i j →
      (loadSnapshot decodeImg e snap e.width e.height).maskLayer i j
          = e.maskLayer i j
      ∧ (loadSnapshot decodeImg e snap e.width e.height).textureMaskLayer i j
          = e.textureMaskLayer i j
      ∧ getLayer (loadSnapshot decodeImg e snap e.width e.height).mapCtx i j
          = getLayer e.mapCtx i j
      ∧ getLayer (loadSnapshot decodeImg e snap e.width e.height).pathCtx i j
          = getLayer e.pathCtx i j := by
  intro snap hsnap i j hic
  simp only [getSnapshot, hM, Option.isNone_some, Bool.false_eq_true,
    if_false, reduceIte, Option.some.injEq] at hsnap
  subst hsnap
  simp only [loadSnapshot, hM, hP, renderTextureLayer_maskLayer,
    renderTextureLayer_textureMaskLayer, renderTextureLayer_mapCtx,
    renderTextureLayer_pathCtx, getLayer, hM, Option.getD_some]
  refine ⟨?_, ?_, ?_, ?_⟩
  · exact loadLayer_roundtrip toDataURL decodeImg e.width e.height lossless
      e.maskLayer _ i j hic
  · exact loadLayer_roundtrip toDataURL decodeImg e.width e.height lossless
      e.textureMaskLayer _ i j hic
  · exact loadLayer_roundtrip toDataURL decodeImg e.width e.height lossless
      M _ i j hic
  · exact loadLayer_roundtrip toDataURL decodeImg e.width e.height lossless
      P _ i j hic

end RpgMap

namespace RpgMap

/-- Witness for C9 with the identity blob codec on the concrete engine,
checked at pixel (1,1). -/
theorem snapshot_round_trip_witness :
    (testEngine.mapCtx = some Layer.empty
      ∧ testEngine.pathCtx = some Layer.empty
      ∧ getSnapshot (fun _ _ L => L) testEngine
          = some ⟨Layer.empty, Layer.empty, some Layer.empty, Layer.empty⟩
      ∧ inCanvas testEngine.width testEngine.height 1 1)
    ∧ (loadSnapshot (fun L => (⟨4, 4, L⟩ : Img)) testEngine
        ⟨Layer.empty, Layer.empty, some Layer.empty, Layer.empty⟩
        testEngine.width testEngine.height).maskLayer 1 1
      = testEngine.maskLayer 1 1
    ∧ (loadSnapshot (fun L => (⟨4, 4, L⟩ : Img)) testEngine
        ⟨Layer.empty, Layer.empty, some Layer.empty, Layer.empty⟩
        testEngine.width testEngine.height).textureMaskLayer 1 1
      = testEngine.textureMaskLayer 1 1
    ∧ getLayer (loadSnapshot (fun L => (⟨4, 4, L⟩ : Img)) testEngine
        ⟨Layer.empty, Layer.empty, some Layer.empty, Layer.empty⟩
        testEngine.width testEngine.height).mapCtx 1 1
      = getLayer testEngine.mapCtx 1 1
    ∧ getLayer (loadSnapshot (fun L => (⟨4, 4, L⟩ : Img)) testEngine
        ⟨Layer.empty, Layer.empty, some Layer.empty, Layer.empty⟩
        testEngine.width testEngine.height).pathCtx 1 1
      = getLayer testEngine.pathCtx 1 1 := by
  have h := snapshot_round_trip (fun _ _ L => L)
    (fun L => (⟨4, 4, L⟩ : Img)) testEngine Layer.empty Layer.empty rfl rfl
    (fun L => ⟨rfl, rfl, fun i j _ => rfl⟩)
    ⟨Layer.empty, Layer.empty, some Layer.empty, Layer.empty⟩ rfl 1 1
    (by decide)
  exact ⟨⟨rfl, rfl, rfl, by decide⟩, h.1, h.2.1, h.2.2.1, h.2.2.2⟩

end RpgMap
